import Mathlib

/-!
# Yango Drive scraper: a shallow embedding of `src/index.js`

The development embeds the pure parts of the scraper (name validation, slug
formatting, the card callback run inside the listing page, the pagination loop
of `scrapeCarData` and the orchestration loop of `scrapeCars`) as Lean
functions.  Everything the program learns from the browser is an explicit
environment argument: what each listing load shows, which awaited call throws,
and what the module-level flag `isScrapingCancelled` holds when it is read.

JavaScript strings are modelled by Lean strings; the helper functions work on
their character lists so that every definition is structurally recursive and
evaluates by reduction.
-/

namespace YangoScraper

deriving instance DecidableEq for Except

/-! ## String helpers (JavaScript `trim`, `\s`, `includes`, `replace`) -/

/-- White space and line terminators of JavaScript: the characters matched by
`\s` in a regular expression and stripped by `String.prototype.trim`. -/
def isJsSpace (c : Char) : Bool :=
  let n := c.toNat
  n == 0x9 || n == 0xA || n == 0xB || n == 0xC || n == 0xD || n == 0x20 ||
  n == 0xA0 || n == 0x1680 || (0x2000 ≤ n && n ≤ 0x200A) || n == 0x2028 ||
  n == 0x2029 || n == 0x202F || n == 0x205F || n == 0x3000 || n == 0xFEFF

/-- Characters of `s.trim()`. -/
def trimChars (cs : List Char) : List Char :=
  ((cs.dropWhile isJsSpace).reverse.dropWhile isJsSpace).reverse

/-- The method `s.trim()`. -/
def jsTrim (s : String) : String := ⟨trimChars s.data⟩

/-- Worker of `replaceSpaceRuns`; `inRun` tells that the previous character was
white space, whose run has already been replaced. -/
def replaceSpaceRunsAux (sep : List Char) : Bool → List Char → List Char
  | _, [] => []
  | inRun, c :: cs =>
    if isJsSpace c then
      (if inRun then [] else sep) ++ replaceSpaceRunsAux sep true cs
    else c :: replaceSpaceRunsAux sep false cs

/-- The call `s.replace(/\s+/g, sep)`: every maximal run of white space becomes
one copy of `sep`. -/
def replaceSpaceRuns (sep : String) (s : String) : String :=
  ⟨replaceSpaceRunsAux sep.data false s.data⟩

/-- Substring test on character lists. -/
def includesChars (pat : List Char) : List Char → Bool
  | [] => pat.isEmpty
  | c :: cs => pat.isPrefixOf (c :: cs) || includesChars pat cs

/-- The method `s.includes(pat)`. -/
def jsIncludes (s pat : String) : Bool := includesChars pat.data s.data

/-- Removal of the first occurrence of a non-empty `pat`. -/
def removeFirstChars (pat : List Char) : List Char → List Char
  | [] => []
  | c :: cs =>
    if pat.isPrefixOf (c :: cs) then (c :: cs).drop pat.length
    else c :: removeFirstChars pat cs

/-- The call `s.replace(pat, "")` with a string pattern: only the first
occurrence is removed. -/
def removeFirst (s pat : String) : String := ⟨removeFirstChars pat.data s.data⟩

/-- The test `/Total:/i.test(text)`: without the `u` flag, ignoring case only
identifies the ASCII letters with their other case. -/
def testTotal (text : String) : Bool :=
  includesChars "total:".data (text.data.map Char.toLower)

/-- The test `/AED/.test(text)`. -/
def testAED (text : String) : Bool := includesChars "AED".data text.data

/-- The match `/\d{4}/`: the leftmost four consecutive decimal digits. -/
def firstFourDigits : List Char → Option (List Char)
  | [] => none
  | a :: rest =>
    match rest with
    | b :: c :: d :: _ =>
      if a.isDigit && b.isDigit && c.isDigit && d.isDigit then some [a, b, c, d]
      else firstFourDigits rest
    | _ => none

/-- The expression `str.match(/\d{4}/)`, `none` for a failed match. -/
def matchYear (s : String) : Option String := (firstFourDigits s.data).map String.mk

/-! ## Records -/

/-- The sentinel of a field that could not be resolved. -/
def NA : String := "N/A"

/-- A scraped record: a JavaScript object with string keys, kept as the list of
its own properties in insertion order. -/
abbrev Record := List (String × String)

/-- The assignment `data[key] = value`: an existing property keeps its place
and gets the new value, a new property is appended. -/
def Record.set : Record → String → String → Record
  | [], key, value => [(key, value)]
  | (k, v) :: rest, key, value =>
    if k = key then (k, value) :: rest else (k, v) :: Record.set rest key value

/-- The read `data[key]`, `none` for `undefined`. -/
def Record.get? : Record → String → Option String
  | [], _ => none
  | (k, v) :: rest, key => if k = key then some v else Record.get? rest key

/-- Own property names of a record, in insertion order. -/
def Record.keys (r : Record) : List String := r.map Prod.fst

/-- The eleven field names of a complete record. -/
def fieldNames : List String :=
  ["Car Name", "Model", "Year", "Description", "Cross Price", "Actual Price",
   "Total", "Original Vehicle", "Period", "Mileage", "Insurance & Options"]

/-! ## The listing page as seen by the card callback -/

/-- One `p` element of a price block: its `textContent` and whether it holds an
element of class `Price_crossOut__QufS3`. -/
structure Paragraph where
  textContent : String
  crossOut : Bool
  deriving Repr, DecidableEq

/-- The nearest `div` ancestor of a title element, reduced to what the callback
reads: the `textContent` of the element matching `selectors.model`, if any. -/
structure Container where
  model : Option String
  deriving Repr, DecidableEq

/-- An element matching `selectors.title`. -/
structure TitleElement where
  textContent : String
  closestDiv : Option Container
  deriving Repr, DecidableEq

/-- An element matching `selectors.features`: the `textContent` of each of its
descendants matching `selectors.featureSpans`. -/
structure FeatureDiv where
  spans : List String
  deriving Repr, DecidableEq

/-- An element matching `selectors.price`: its `p` descendants in document
order. -/
structure PriceDiv where
  paragraphs : List Paragraph
  deriving Repr, DecidableEq

/-- The four node lists the callback queries from the document. -/
structure Dom where
  carElements : List TitleElement
  featureDivs : List FeatureDiv
  priceDivs : List PriceDiv
  buttonElements : Nat
  deriving Repr, DecidableEq

/-- What the callback returns for a card. -/
structure CardData where
  data : Record
  hasButton : Bool
  deriving Repr, DecidableEq

/-- The three price variables of the callback. -/
structure Prices where
  crossPrice : String
  actualPrice : String
  totalPrice : String
  deriving Repr, DecidableEq

/-- Body of `pElements.forEach`: one paragraph updates at most one variable. -/
def classifyParagraph (acc : Prices) (p : Paragraph) : Prices :=
  let text := jsTrim p.textContent
  if testTotal text then
    { acc with totalPrice := jsTrim (removeFirst text "Total:") }
  else if testAED text && p.crossOut then
    { acc with crossPrice := text }
  else if testAED text then
    { acc with actualPrice := text }
  else acc

/-- The loop `pElements.forEach` started from three sentinels. -/
def classifyPrices (ps : List Paragraph) : Prices :=
  ps.foldl classifyParagraph ⟨NA, NA, NA⟩

/-- The `Description` of a feature block. -/
def describeFeatures (f : FeatureDiv) : String :=
  let featureTexts := (f.spans.map jsTrim).filter (fun t => t != "")
  let joined := if featureTexts.length > 0 then ", ".intercalate featureTexts else NA
  jsTrim (replaceSpaceRuns " " joined)

/-- The callback given to `page.evaluate` for one card (lines 97-179).  It
returns `null` (`ok none`), a card (`ok (some _)`), or throws: reading
`textContent` of `carElements[index]` when there is no such element is a
`TypeError`. -/
def cardCallback (dom : Dom) (index : Nat) (carName periodName : String) :
    Except String (Option CardData) :=
  if index ≥ 5 then .ok none
  else
    match dom.carElements[index]? with
    | none => .error "Cannot read properties of undefined"
    | some carElement =>
      let name := jsTrim carElement.textContent
      let data : Record := Record.set [] "Car Name" (if name = "" then NA else name)
      match carElement.closestDiv with
      | none => .ok none
      | some ancestorContainer =>
        let model :=
          match ancestorContainer.model with
          | some text => jsTrim text
          | none => NA
        let data := data.set "Model" model
        let data := data.set "Year" ((matchYear model).getD NA)
        let data :=
          match dom.featureDivs[index]? with
          | some featureDiv => data.set "Description" (describeFeatures featureDiv)
          | none => data.set "Description" NA
        let data :=
          match dom.priceDivs[index]? with
          | some priceDiv =>
            let prices := classifyPrices priceDiv.paragraphs
            ((data.set "Cross Price" prices.crossPrice).set
              "Actual Price" prices.actualPrice).set "Total" prices.totalPrice
          | none =>
            ((data.set "Cross Price" NA).set "Actual Price" NA).set "Total" NA
        let data := data.set "Original Vehicle" carName
        let data := data.set "Period" periodName
        .ok (some { data := data, hasButton := decide (index < dom.buttonElements) })

/-! ## The period scraper `scrapeCarData` -/

/-- The constant `maxRetries` of `scrapeCarData` (line 51). -/
def maxRetries : Nat := 1

/-- The detail view opened by the action control of a card (lines 209-319), as
far as the scraper observes it: each awaited step either throws or yields its
value.  `click` stands for the steps up to the detail panel (scroll into view,
wait until visible, click, fixed wait); `mileage` and `insurance` are the two
`page.evaluate` calls on the detail view; `cookies` is the final snapshot of
the session cookies. -/
structure Detail where
  click : Except String Unit
  mileage : Except String String
  insurance : Except String String
  cookies : Except String Unit

/-- One load of the listing page: the outcome of `page.goto`, of the three
`waitForSelector` calls, of each `page.evaluate` attempt (a protocol error, or
the document the card callback runs on) and of the detail view. -/
structure Listing where
  goto : Except String Unit
  waitTitle : Except String Unit
  waitFeatures : Except String Unit
  waitPrice : Except String Unit
  evaluate : Nat → Except String Dom
  detail : Detail

/-- Everything one call of `scrapeCarData` observes: `cancelled n` is the value
of `isScrapingCancelled` read at the top of iteration `n` of the loop (counting
from 0), `listing n` is the page as loaded in that iteration. -/
structure JobEnv where
  cancelled : Nat → Bool
  listing : Nat → Listing

/-- The arguments of a call of `scrapeCarData` (the page and the constant
selector profile apart). -/
structure JobCall where
  carName : String
  periodName : String
  durationHours : ℚ
  isMonthly : Bool
  mainUrl : String
  deriving DecidableEq

/-- The value returned by `scrapeCarData`; `message` is absent on success. -/
structure Outcome where
  success : Bool
  message : Option String
  data : List Record
  deriving Repr, DecidableEq

/-- The try block around the three `waitForSelector` calls (lines 64-83):
`true` when all three selectors became visible, `false` when the catch clause
leaves the loop. -/
def selectorsVisible (l : Listing) : Bool :=
  match l.waitTitle with
  | .error _ => false
  | .ok _ =>
    match l.waitFeatures with
    | .error _ => false
    | .ok _ =>
      match l.waitPrice with
      | .error _ => false
      | .ok _ => true

/-- One `page.evaluate` attempt at a card: a protocol error, or the result of
the callback on the document of that attempt. -/
def evaluateCard (l : Listing) (attempt index : Nat) (carName periodName : String) :
    Except String (Option CardData) :=
  match l.evaluate attempt with
  | .error e => .error e
  | .ok dom => cardCallback dom index carName periodName

/-- The loop `while (retryCount < maxRetries)` (lines 87-195).  The first
argument is `maxRetries - retryCount`, the number of iterations the loop test
still admits; the result is the final `cardData`, `none` for `null`.  A `null`
result and a thrown error both end in `retryCount++`. -/
def retryLoop (l : Listing) (index : Nat) (carName periodName : String) :
    Nat → Nat → Option CardData
  | 0, _ => none
  | remaining + 1, retryCount =>
    match evaluateCard l retryCount index carName periodName with
    | .ok (some cardData) => some cardData
    | .ok none => retryLoop l index carName periodName remaining (retryCount + 1)
    | .error _ => retryLoop l index carName periodName remaining (retryCount + 1)

/-- The statements `let retryCount = 0; let cardData = null;` followed by the
retry loop. -/
def extractCard (l : Listing) (index : Nat) (carName periodName : String) :
    Option CardData :=
  retryLoop l index carName periodName (maxRetries - 0) 0

/-- The assignment `results[index][key] = value`; it throws a `TypeError` when
`results[index]` is `undefined`. -/
def setAt (results : List Record) (index : Nat) (key value : String) :
    Except String (List Record) :=
  match results[index]? with
  | none => .error "Cannot set properties of undefined"
  | some r => .ok (results.set index (r.set key value))

/-- The two assignments of the sentinel (lines 324-325 and 329-330). -/
def markUnavailable (results : List Record) (index : Nat) :
    Except String (List Record) :=
  match setAt results index "Mileage" NA with
  | .error e => .error e
  | .ok results1 => setAt results1 index "Insurance & Options" NA

/-- The try block of the enrichment (lines 209-319): the state of `results`
when the block is left, and the error it threw, if any. -/
def detailSteps (d : Detail) (results : List Record) (index : Nat) :
    List Record × Option String :=
  match d.click with
  | .error e => (results, some e)
  | .ok _ =>
    match d.mileage with
    | .error e => (results, some e)
    | .ok mileage =>
      match d.insurance with
      | .error e => (results, some e)
      | .ok insuranceOptions =>
        match setAt results index "Mileage" mileage with
        | .error e => (results, some e)
        | .ok results1 =>
          match setAt results1 index "Insurance & Options" insuranceOptions with
          | .error e => (results1, some e)
          | .ok results2 =>
            match d.cookies with
            | .error e => (results2, some e)
            | .ok _ => (results2, none)

/-- The statement `if (cardData.hasButton) ... else ...` (lines 206-331); an
error is one that escapes to the outer catch clause. -/
def enrich (hasButton : Bool) (d : Detail) (results : List Record) (index : Nat) :
    Except String (List Record) :=
  if hasButton then
    match detailSteps d results index with
    | (results1, none) => .ok results1
    | (results1, some _) => markUnavailable results1 index
  else markUnavailable results index

/-- How the loop `while (true)` was left: by `break` (`thrown = none`) or by an
error reaching the outer catch clause; with the number of `page.goto` calls
made, and the final `index` and `results`. -/
structure LoopExit where
  loads : Nat
  index : Nat
  results : List Record
  thrown : Option String
  deriving Repr, DecidableEq

/-- The loop `while (true)` of `scrapeCarData` (lines 53-334), with fuel: `none`
means the fuel ran out before the loop was left.  `loads` counts the iterations
started so far. -/
def scrapeLoop (env : JobEnv) (carName periodName : String) :
    Nat → Nat → Nat → List Record → Option LoopExit
  | 0, _, _, _ => none
  | fuel + 1, loads, index, results =>
    if env.cancelled loads then
      some ⟨loads, index, results, some "Scraping cancelled by user"⟩
    else
      let l := env.listing loads
      match l.goto with
      | .error e => some ⟨loads + 1, index, results, some e⟩
      | .ok _ =>
        if selectorsVisible l then
          match extractCard l index carName periodName with
          | none => some ⟨loads + 1, index, results, none⟩
          | some cardData =>
            let results1 := results ++ [cardData.data]
            match enrich cardData.hasButton l.detail results1 index with
            | .error e => some ⟨loads + 1, index, results1, some e⟩
            | .ok results2 =>
              scrapeLoop env carName periodName fuel (loads + 1) (index + 1) results2
        else some ⟨loads + 1, index, results, none⟩

/-- The message chosen by the outer catch clause (lines 347-351). -/
def catchMessage (msg : String) : String :=
  if jsIncludes msg "timeout" then "Check car name on Yango Drive website"
  else if jsIncludes msg "cancelled" then "Scraping cancelled by user"
  else msg

/-- What `scrapeCarData` returns once the loop is left (lines 336-353). -/
def outcomeOf (carName periodName : String) (exit : LoopExit) : Outcome :=
  match exit.thrown with
  | some msg => { success := false, message := some (catchMessage msg), data := [] }
  | none =>
    if exit.results.length = 0 then
      { success := false,
        message := some ("No data found for " ++ carName ++ " (" ++ periodName ++ ")"),
        data := [] }
    else { success := true, message := none, data := exit.results }

/-- The function `scrapeCarData` (lines 39-354) on the page behaviour `env`:
the outcome it returns and the number of listing loads it made. -/
def scrapeCarData (env : JobEnv) (call : JobCall) (fuel : Nat) : Option (Outcome × Nat) :=
  (scrapeLoop env call.carName call.periodName fuel 0 0 []).map
    (fun exit => (outcomeOf call.carName call.periodName exit, exit.loads))

/-! ## The JavaScript runtime used by the orchestrator -/

/-- A calendar date, the `YYYY-MM-DD` text of `pickupDate`. -/
structure Ymd where
  year : Int
  month : Nat
  day : Nat
  deriving Repr, DecidableEq

/-- A time of day, the `HH:MM:SS` text of `baseTime`. -/
structure Hms where
  hour : Nat
  minute : Nat
  second : Nat
  deriving Repr, DecidableEq

/-- The built-in string and `Date` operations `scrapeCars` relies on; their
implementation belongs to the JavaScript engine and depends on its locale and
time zone, so they are parameters of the model.
* `toLowerCase s` is `s.toLowerCase()`;
* `getTime d t` is `new Date(d + "T" + t).getTime()`, the epoch milliseconds of
  a local date and time;
* `plusDays d k` is the date text of `new Date(d)` after
  `setDate(getDate() + k)`, read back through `toISOString`;
* `plusMonths d n` is the same with `setMonth(getMonth() + n)`;
* `toLocaleString ms` is `new Date(ms).toLocaleString()`. -/
structure JsRuntime where
  toLowerCase : String → String
  getTime : Ymd → Hms → Int
  plusDays : Ymd → Nat → Ymd
  plusMonths : Ymd → Nat → Ymd
  toLocaleString : Int → String

/-! ## Validation and slug -/

/-- A vehicle name as a JavaScript value: a string, or a missing entry. -/
inductive CarName where
  | str (s : String)
  | undefined
  | null
  deriving Repr, DecidableEq

/-- The text of a name inside a template literal. -/
def CarName.text : CarName → String
  | .str s => s
  | .undefined => "undefined"
  | .null => "null"

/-- The value returned by `validateCarName`. -/
structure Validation where
  valid : Bool
  message : Option String
  deriving Repr, DecidableEq

/-- The function `validateCarName` (lines 13-22): the test
`!carName || carName.length < 1` holds of a missing name and of the empty
string. -/
def validateCarName (carName : CarName) : Validation :=
  let invalid : Bool :=
    match carName with
    | .str s => s = "" || decide (s.length < 1)
    | .undefined => true
    | .null => true
  if invalid then
    { valid := false,
      message := some ("Car name \"" ++ carName.text ++ "\" must be at least 1 characters long") }
  else { valid := true, message := none }

/-- The function `formatCarNameForUrl` (lines 24-26). -/
def formatCarNameForUrl (rt : JsRuntime) (carName : String) : String :=
  replaceSpaceRuns "/" (rt.toLowerCase carName)

/-- The first loop of `scrapeCars` (lines 363-367): the messages of the invalid
names, in list order. -/
def validationErrors : List CarName → List String
  | [] => []
  | carName :: rest =>
    let validation := validateCarName carName
    if !validation.valid then validation.message.getD "undefined" :: validationErrors rest
    else validationErrors rest

/-! ## Period construction -/

/-- The kinds of rental period. -/
inductive Kind where
  | daily
  | weekly
  | monthly
  deriving Repr, DecidableEq

/-- The expression `(untilDateTime - sinceDateTime) / (1000 * 60 * 60)`. -/
def durationHoursOf (sinceDateTime untilDateTime : Int) : ℚ :=
  ((untilDateTime - sinceDateTime : Int) : ℚ) / (1000 * 60 * 60)

/-- The listing URL of a daily or weekly job (lines 417-421 and 451-455). -/
def windowUrl (formattedCarName : String) (sinceDateTime untilDateTime : Int) : String :=
  let durationHours := durationHoursOf sinceDateTime untilDateTime
  let isMonthly : Bool := decide (durationHours ≥ 720)
  let durationMonths : Int := if isMonthly then ⌈durationHours / 720⌉ else 0
  "https://drive.yango.com/search/all/" ++ formattedCarName ++
    "?since=" ++ toString sinceDateTime ++ "&until=" ++ toString untilDateTime ++
    "&duration_months=" ++ toString durationMonths ++
    (if isMonthly then "&is_monthly=true" else "") ++ "&sort_by=price&sort_order=asc"

/-- The arguments of the `scrapeCarData` call of the daily (`days = 1`, lines
405-430) and of the weekly (`days = 7`, lines 439-464) job; the two blocks of
the source differ in that number only. -/
def windowCall (rt : JsRuntime) (pickupDate : Ymd) (baseTime : Hms)
    (carName formattedCarName : String) (days : Nat) : JobCall :=
  let sinceDateTime := rt.getTime pickupDate baseTime
  let untilDate := rt.plusDays pickupDate days
  let untilDateTime := rt.getTime untilDate baseTime
  let durationHours := durationHoursOf sinceDateTime untilDateTime
  let periodName := rt.toLocaleString sinceDateTime ++ " - " ++ rt.toLocaleString untilDateTime
  let isMonthly : Bool := decide (durationHours ≥ 720)
  { carName := carName,
    periodName := periodName,
    durationHours := durationHours,
    isMonthly := isMonthly,
    mainUrl := windowUrl formattedCarName sinceDateTime untilDateTime }

/-- The arguments of the `scrapeCarData` call of the monthly job (lines
473-494): the flag is the constant `true` and the URL always carries
`&is_monthly=true`. -/
def monthlyCall (rt : JsRuntime) (pickupDate : Ymd) (baseTime : Hms)
    (carName formattedCarName : String) (months : Nat) : JobCall :=
  let sinceDateTime := rt.getTime pickupDate baseTime
  let untilDate := rt.plusMonths pickupDate months
  let untilDateTime := rt.getTime untilDate baseTime
  let durationHours := durationHoursOf sinceDateTime untilDateTime
  let periodName := toString months ++ " Month" ++ (if months > 1 then "s" else "") ++
    " from " ++ rt.toLocaleString sinceDateTime
  { carName := carName,
    periodName := periodName,
    durationHours := durationHours,
    isMonthly := true,
    mainUrl := "https://drive.yango.com/search/all/" ++ formattedCarName ++
      "?since=" ++ toString sinceDateTime ++ "&until=" ++ toString untilDateTime ++
      "&duration_months=" ++ toString months ++
      "&is_monthly=true&sort_by=price&sort_order=asc" }

/-- The call built for a job of the given kind. -/
def jobCall (rt : JsRuntime) (pickupDate : Ymd) (baseTime : Hms)
    (carName formattedCarName : String) (months : Nat) : Kind → JobCall
  | .daily => windowCall rt pickupDate baseTime carName formattedCarName 1
  | .weekly => windowCall rt pickupDate baseTime carName formattedCarName 7
  | .monthly => monthlyCall rt pickupDate baseTime carName formattedCarName months

/-- The word that starts the error label of a kind. -/
def Kind.label : Kind → String
  | .daily => "Daily"
  | .weekly => "Weekly"
  | .monthly => "Monthly"

/-! ## The orchestrator `scrapeCars` -/

/-- The value returned by `scrapeCars`; `data` is present on success only. -/
structure Report where
  success : Bool
  message : String
  data : Option (List Record)
  deriving Repr, DecidableEq

/-- Everything one call of `scrapeCars` observes: the reference date and time
computed from the clock (lines 390-394), the value of `isScrapingCancelled`
read before vehicle `i` (line 398), the outcome of `context.newPage()` for
vehicle `i`, and the page behaviour during each job.  Launching and closing the
browser are taken to succeed. -/
structure RunEnv where
  pickupDate : Ymd
  baseTime : Hms
  cancelled : Nat → Bool
  newPage : Nat → Except String Unit
  job : Nat → Kind → JobEnv

/-- The mutable state of a run: the module-level accumulator `scrapedData`,
the local list `errors`, and a log of the `scrapeCarData` calls made and of the
listing loads they performed. -/
structure Acc where
  scrapedData : List Record
  errors : List String
  calls : List JobCall
  loads : Nat
  deriving DecidableEq

/-- A call of `scrapeCarData` followed by the statement
`if (result.success) scrapedData = scrapedData.concat(result.data); else
errors.push(...)`. -/
def runJob (env : JobEnv) (kind : Kind) (call : JobCall) (fuel : Nat) (acc : Acc) :
    Option Acc :=
  match scrapeCarData env call fuel with
  | none => none
  | some (result, loads) =>
    if result.success then
      some { scrapedData := acc.scrapedData ++ result.data,
             errors := acc.errors,
             calls := acc.calls ++ [call],
             loads := acc.loads + loads }
    else
      some { scrapedData := acc.scrapedData,
             errors := acc.errors ++
               [kind.label ++ " scrape failed for " ++ call.carName ++ ": " ++
                 result.message.getD "undefined"],
             calls := acc.calls ++ [call],
             loads := acc.loads + loads }

/-- One job of vehicle `i`, run when `enabled` holds. -/
def jobStep (rt : JsRuntime) (env : RunEnv) (months fuel i : Nat)
    (carName formattedCarName : String) (kind : Kind) (enabled : Bool) (acc : Acc) :
    Option Acc :=
  if enabled then
    runJob (env.job i kind) kind
      (jobCall rt env.pickupDate env.baseTime carName formattedCarName months kind) fuel acc
  else some acc

/-- The inner try block of `scrapeCars` (lines 403-500): the daily, the weekly
and the monthly job of vehicle `i`, each under its own condition.  None of the
statements of the block throws in this model (`scrapeCarData` catches every
error it meets), so the catch clause of line 501 is never entered. -/
def vehicleJobs (rt : JsRuntime) (env : RunEnv)
    (dailyCheck weeklyCheck monthlyCheck : Bool) (months fuel i : Nat)
    (carName formattedCarName : String) (acc : Acc) : Option Acc :=
  match jobStep rt env months fuel i carName formattedCarName .daily dailyCheck acc with
  | none => none
  | some acc1 =>
    match jobStep rt env months fuel i carName formattedCarName .weekly weeklyCheck acc1 with
    | none => none
    | some acc2 =>
      jobStep rt env months fuel i carName formattedCarName .monthly
        (monthlyCheck && decide (months ≠ 0)) acc2

/-- The call `carName.toLowerCase()` on a JavaScript value: a `TypeError` on a
missing name. -/
def CarName.toLowerCase (rt : JsRuntime) : CarName → Except String String
  | .str s => .ok (rt.toLowerCase s)
  | .undefined => .error "Cannot read properties of undefined"
  | .null => .error "Cannot read properties of null"

/-- The loop `for (const carName of carNames)` (lines 397-506) from vehicle
`i` on.  The second component is the report of a `return` inside the loop or of
the outer catch clause (line 523), `none` when the loop ran to its end. -/
def vehicleLoop (rt : JsRuntime) (env : RunEnv)
    (dailyCheck weeklyCheck monthlyCheck : Bool) (months fuel : Nat) :
    List CarName → Nat → Acc → Option (Acc × Option Report)
  | [], _, acc => some (acc, none)
  | carName :: rest, i, acc =>
    if env.cancelled i then
      some (acc, some { success := false, message := "Scraping cancelled", data := none })
    else
      match carName.toLowerCase rt with
      | .error e => some (acc, some { success := false, message := e, data := none })
      | .ok lowered =>
        let formattedCarName := formatCarNameForUrl rt lowered
        match env.newPage i with
        | .error e => some (acc, some { success := false, message := e, data := none })
        | .ok _ =>
          match vehicleJobs rt env dailyCheck weeklyCheck monthlyCheck months fuel i
              carName.text formattedCarName acc with
          | none => none
          | some acc1 =>
            vehicleLoop rt env dailyCheck weeklyCheck monthlyCheck months fuel rest (i + 1) acc1

/-- The report built after the loop (lines 508-522). -/
def finalReport (scrapedData : List Record) (errors : List String) : Report :=
  if scrapedData.length = 0 then
    { success := false,
      message := if errors.length > 0 then "; ".intercalate errors else "No data scraped",
      data := none }
  else
    { success := true,
      message :=
        if errors.length > 0 then
          "Scraping completed with errors: " ++ "; ".intercalate errors
        else "Scraping completed successfully",
      data := some scrapedData }

/-- The result of a run: the report returned, the module-level accumulator
and the local list `errors` when the function returns, the `scrapeCarData` calls
made (in order) and the number of listing loads. -/
structure Run where
  report : Report
  scrapedData : List Record
  errors : List String
  calls : List JobCall
  loads : Nat
  deriving DecidableEq

/-- The function `scrapeCars` (lines 356-529), started with the module-level
accumulator holding `scrapedData`.  `months` is `monthlyData.months`; `fuel`
bounds the iterations of each pagination loop, and `none` means it ran out. -/
def scrapeCars (rt : JsRuntime) (env : RunEnv) (fuel : Nat) (scrapedData : List Record)
    (carNames : List CarName) (dailyCheck weeklyCheck monthlyCheck : Bool) (months : Nat) :
    Option Run :=
  let errors := validationErrors carNames
  if errors.length > 0 then
    some { report := { success := false, message := "; ".intercalate errors, data := none },
           scrapedData := scrapedData, errors := errors, calls := [], loads := 0 }
  else
    match vehicleLoop rt env dailyCheck weeklyCheck monthlyCheck months fuel carNames 0
        { scrapedData := scrapedData, errors := errors, calls := [], loads := 0 } with
    | none => none
    | some (acc, some report) =>
      some { report := report, scrapedData := acc.scrapedData, errors := acc.errors,
             calls := acc.calls, loads := acc.loads }
    | some (acc, none) =>
      some { report := finalReport acc.scrapedData acc.errors,
             scrapedData := acc.scrapedData, errors := acc.errors,
             calls := acc.calls, loads := acc.loads }

/-! ## A concrete runtime: India Standard Time

The script pins the time zone to `Asia/Kolkata` (line 675), a fixed offset of
five and a half hours without daylight saving.  The runtime below computes the
`Date` operations for that zone with the proleptic Gregorian calendar and
lower-cases the ASCII letters; it serves to run the model on concrete dates. -/

/-- Days from 1970-01-01 to the given civil date; a day number past the end of
the month counts on into the next month, as `Date` does. -/
def daysFromCivil (d : Ymd) : Int :=
  let y : Int := if d.month ≤ 2 then d.year - 1 else d.year
  let era : Int := y / 400
  let yoe : Int := y - era * 400
  let mp : Int := if d.month > 2 then (d.month : Int) - 3 else (d.month : Int) + 9
  let doy : Int := (153 * mp + 2) / 5 + (d.day : Int) - 1
  let doe : Int := yoe * 365 + yoe / 4 - yoe / 100 + doy
  era * 146097 + doe - 719468

/-- The civil date of a day number counted from 1970-01-01. -/
def civilFromDays (z0 : Int) : Ymd :=
  let z : Int := z0 + 719468
  let era : Int := z / 146097
  let doe : Int := z - era * 146097
  let yoe : Int := (doe - doe / 1460 + doe / 36524 - doe / 146096) / 365
  let y : Int := yoe + era * 400
  let doy : Int := doe - (365 * yoe + yoe / 4 - yoe / 100)
  let mp : Int := (5 * doy + 2) / 153
  let d : Int := doy - (153 * mp + 2) / 5 + 1
  let m : Int := if mp < 10 then mp + 3 else mp - 9
  { year := if m ≤ 2 then y + 1 else y, month := m.toNat, day := d.toNat }

/-- Offset of India Standard Time from UTC, in milliseconds. -/
def istOffsetMs : Int := 19800000

/-- Epoch milliseconds of a date and time of day read as India Standard Time. -/
def istGetTime (d : Ymd) (t : Hms) : Int :=
  daysFromCivil d * 86400000 +
    ((t.hour : Int) * 3600 + (t.minute : Int) * 60 + (t.second : Int)) * 1000 - istOffsetMs

/-- The date `k` days after `d`. -/
def civilPlusDays (d : Ymd) (k : Nat) : Ymd :=
  civilFromDays (daysFromCivil d + (k : Int))

/-- The date `n` months after `d`: the month is advanced, and a day past the
end of the resulting month overflows into the following one. -/
def civilPlusMonths (d : Ymd) (n : Nat) : Ymd :=
  let total : Int := (d.month : Int) - 1 + (n : Int)
  civilFromDays
    (daysFromCivil { year := d.year + total / 12, month := (total % 12).toNat + 1, day := d.day })

/-- Two decimal digits. -/
def twoDigits (n : Nat) : String :=
  if n < 10 then "0" ++ toString n else toString n

/-- The `en-US` text of an instant in India Standard Time, such as
`1/1/2024, 8:00:00 AM`. -/
def istLocaleString (ms : Int) : String :=
  let localMs : Int := ms + istOffsetMs
  let d := civilFromDays (localMs / 86400000)
  let secs : Nat := ((localMs % 86400000) / 1000).toNat
  let h := secs / 3600
  let h12 := if h % 12 = 0 then 12 else h % 12
  toString d.month ++ "/" ++ toString d.day ++ "/" ++ toString d.year ++ ", " ++
    toString h12 ++ ":" ++ twoDigits (secs / 60 % 60) ++ ":" ++ twoDigits (secs % 60) ++
    (if h < 12 then " AM" else " PM")

/-- Lower-casing of the ASCII letters. -/
def asciiLower (s : String) : String := ⟨s.data.map Char.toLower⟩

/-- The runtime of a process in India Standard Time. -/
def istRuntime : JsRuntime where
  toLowerCase := asciiLower
  getTime := istGetTime
  plusDays := civilPlusDays
  plusMonths := civilPlusMonths
  toLocaleString := istLocaleString

/-! ## Reading a run: job results in job order -/

/-- The outcome of a `scrapeCarData` call.  The pagination loop is left within
six iterations whatever the page does (`scrapeCarData_of_fuel`), so six units
of fuel are enough and the default is never used. -/
def jobOutcome (env : JobEnv) (call : JobCall) : Outcome :=
  ((scrapeCarData env call 6).map Prod.fst).getD { success := false, message := none, data := [] }

/-- The number of listing loads of a `scrapeCarData` call. -/
def jobLoads (env : JobEnv) (call : JobCall) : Nat :=
  ((scrapeCarData env call 6).map Prod.snd).getD 0

/-- The kinds of job run for each vehicle, in the order of the source. -/
def enabledKinds (dailyCheck weeklyCheck monthlyCheck : Bool) (months : Nat) : List Kind :=
  (if dailyCheck then [Kind.daily] else []) ++
  (if weeklyCheck then [Kind.weekly] else []) ++
  (if monthlyCheck && decide (months ≠ 0) then [Kind.monthly] else [])

/-- A job of a run with the outcome `scrapeCarData` returned for it. -/
structure JobResult where
  kind : Kind
  carName : String
  call : JobCall
  outcome : Outcome
  deriving DecidableEq

/-- The job of the given kind for vehicle `i`, named `carName`. -/
def jobResult (rt : JsRuntime) (env : RunEnv) (months i : Nat) (carName : String)
    (kind : Kind) : JobResult :=
  let call := jobCall rt env.pickupDate env.baseTime carName
    (formatCarNameForUrl rt (rt.toLowerCase carName)) months kind
  { kind := kind, carName := carName, call := call, outcome := jobOutcome (env.job i kind) call }

/-- The jobs of the vehicles `carNames`, the first of which is vehicle `i`, in
job order: vehicle order, and daily, weekly, monthly for each vehicle. -/
def jobResults (rt : JsRuntime) (env : RunEnv) (kinds : List Kind) (months : Nat) :
    List String → Nat → List JobResult
  | [], _ => []
  | carName :: rest, i =>
    kinds.map (jobResult rt env months i carName) ++ jobResults rt env kinds months rest (i + 1)

/-- The records of the successful jobs, concatenated in job order. -/
def successData : List JobResult → List Record
  | [] => []
  | r :: rest => (if r.outcome.success then r.outcome.data else []) ++ successData rest

/-- The labelled message of a failed job. -/
def failureLabel (r : JobResult) : String :=
  r.kind.label ++ " scrape failed for " ++ r.carName ++ ": " ++ r.outcome.message.getD "undefined"

/-- The labelled messages of the failed jobs, in job order. -/
def failureLabels : List JobResult → List String
  | [] => []
  | r :: rest => (if r.outcome.success then [] else [failureLabel r]) ++ failureLabels rest

/-- The jobs of a whole run of `scrapeCars` on string names, in job order. -/
def runJobs (rt : JsRuntime) (env : RunEnv) (dailyCheck weeklyCheck monthlyCheck : Bool)
    (months : Nat) (names : List String) : List JobResult :=
  jobResults rt env (enabledKinds dailyCheck weeklyCheck monthlyCheck months) months names 0

/-- A record of the returned data is complete for the card it was extracted
from: it has exactly the eleven fields, its first nine fields are those the
callback produced, and without an action control the two enrichment fields hold
the sentinel. -/
def CompleteFor (card : CardData) (r : Record) : Prop :=
  r.keys = fieldNames ∧
  (∀ k, k ≠ "Mileage" → k ≠ "Insurance & Options" → r.get? k = card.data.get? k) ∧
  (card.hasButton = false →
    r.get? "Mileage" = some NA ∧ r.get? "Insurance & Options" = some NA)

/-- Iteration `i` of the pagination loop ran to its end and left the record `r`
at position `i`: the flag was not set, the listing loaded, the selectors became
visible, a card was extracted at index `i` and `r` is the completed record of
that card. -/
def ExtractedAt (env : JobEnv) (carName periodName : String) (i : Nat) (r : Record) : Prop :=
  env.cancelled i = false ∧ (env.listing i).goto = .ok () ∧
  selectorsVisible (env.listing i) = true ∧
  ∃ card, extractCard (env.listing i) i carName periodName = some card ∧ CompleteFor card r

/-- Why the pagination loop was left in iteration `exit.index`: the flag was
set; or the listing navigation threw; or the selectors did not become visible or
no card was extracted, which leave the loop by `break`. -/
def StoppedAt (env : JobEnv) (carName periodName : String) (exit : LoopExit) : Prop :=
  (env.cancelled exit.index = true ∧ exit.thrown = some "Scraping cancelled by user" ∧
    exit.loads = exit.index) ∨
  (env.cancelled exit.index = false ∧
    (∃ e, (env.listing exit.index).goto = .error e ∧ exit.thrown = some e) ∧
    exit.loads = exit.index + 1) ∨
  (env.cancelled exit.index = false ∧ (env.listing exit.index).goto = .ok () ∧
    (selectorsVisible (env.listing exit.index) = false ∨
      extractCard (env.listing exit.index) exit.index carName periodName = none) ∧
    exit.thrown = none ∧ exit.loads = exit.index + 1)

/-- The end of the rental window of a job: the reference date advanced by one
day, by seven days or by `months` months, at the reference time of day. -/
def jobUntil (rt : JsRuntime) (pickupDate : Ymd) (baseTime : Hms) (months : Nat) : Kind → Int
  | .daily => rt.getTime (rt.plusDays pickupDate 1) baseTime
  | .weekly => rt.getTime (rt.plusDays pickupDate 7) baseTime
  | .monthly => rt.getTime (rt.plusMonths pickupDate months) baseTime

/-- A name is invalid when it is the empty string or missing. -/
def CarName.isInvalid : CarName → Bool
  | .str s => decide (s = "")
  | .undefined => true
  | .null => true

/-- The validation message of an invalid name. -/
def validationMessage (carName : CarName) : String :=
  "Car name \"" ++ carName.text ++ "\" must be at least 1 characters long"

/-- The variables of the pagination loop at the head of an iteration: the
number of listing loads made so far, `index` and `results`. -/
structure LoopState where
  loads : Nat
  index : Nat
  results : List Record
  deriving Repr, DecidableEq

/-- One iteration of the loop `while (true)` of `scrapeCarData` (lines 53-334):
the loop is left (`inl`), or the iteration ends with `index++` and the loop head
is reached again (`inr`). -/
def loopStep (env : JobEnv) (carName periodName : String) (s : LoopState) :
    LoopExit ⊕ LoopState :=
  if env.cancelled s.loads then
    .inl ⟨s.loads, s.index, s.results, some "Scraping cancelled by user"⟩
  else
    let l := env.listing s.loads
    match l.goto with
    | .error e => .inl ⟨s.loads + 1, s.index, s.results, some e⟩
    | .ok _ =>
      if selectorsVisible l then
        match extractCard l s.index carName periodName with
        | none => .inl ⟨s.loads + 1, s.index, s.results, none⟩
        | some cardData =>
          let results1 := s.results ++ [cardData.data]
          match enrich cardData.hasButton l.detail results1 s.index with
          | .error e => .inl ⟨s.loads + 1, s.index, results1, some e⟩
          | .ok results2 => .inr ⟨s.loads + 1, s.index + 1, results2⟩
      else .inl ⟨s.loads + 1, s.index, s.results, none⟩

/-- The loop-head states a run of `scrapeCarData` goes through: the initial
state `index = 0`, `results = []`, and every state an iteration leads to. -/
inductive ReachedBy (env : JobEnv) (carName periodName : String) : LoopState → Prop where
  | start : ReachedBy env carName periodName ⟨0, 0, []⟩
  | next (s t : LoopState) : ReachedBy env carName periodName s →
      loopStep env carName periodName s = .inr t → ReachedBy env carName periodName t

/-- The trimmed text of a paragraph, the variable `text` of the loop body. -/
def Paragraph.text (p : Paragraph) : String := jsTrim p.textContent

/-- The last paragraph, in document order, that satisfies `q`. -/
def lastWhere (q : Paragraph → Bool) (ps : List Paragraph) : Option Paragraph :=
  (ps.filter q).getLast?

/-- A Total line for the code: the trimmed text contains `Total:` in any
letter case. -/
def isTotalLine (p : Paragraph) : Bool := testTotal p.text

/-- A line that sets Cross Price: not a Total line, containing `AED`, with the
struck-through marker. -/
def isCrossLine (p : Paragraph) : Bool := !isTotalLine p && testAED p.text && p.crossOut

/-- A line that sets Actual Price: not a Total line, containing `AED`, without
the struck-through marker. -/
def isActualLine (p : Paragraph) : Bool := !isTotalLine p && testAED p.text && !p.crossOut

/-- A Total line in the words of the specification: the text contains
`Total:`, as written. -/
def claimedTotalLine (p : Paragraph) : Bool := jsIncludes p.text "Total:"

/-- The three prices in the words of the specification: Total from the last
paragraph containing `Total:` with that label removed, Cross Price and Actual
Price from the last paragraph that is not such a line, contains `AED` and has,
respectively has not, the struck-through marker; `"N/A"` without such a
paragraph. -/
def claimedPrices (ps : List Paragraph) : Prices where
  crossPrice :=
    ((lastWhere (fun p => !claimedTotalLine p && testAED p.text && p.crossOut) ps).map
      Paragraph.text).getD NA
  actualPrice :=
    ((lastWhere (fun p => !claimedTotalLine p && testAED p.text && !p.crossOut) ps).map
      Paragraph.text).getD NA
  totalPrice :=
    ((lastWhere claimedTotalLine ps).map
      (fun p => jsTrim (removeFirst p.text "Total:"))).getD NA

/-! ## Sample pages and runs -/

/-- A document showing one card with a price block and an action control. -/
def sampleDom : Dom where
  carElements := [{ textContent := " Kia Seltos ",
                    closestDiv := some { model := some "Kia Seltos 2023 or similar" } }]
  featureDivs := [{ spans := [" 5 seats ", "Automatic"] }]
  priceDivs := [{ paragraphs := [{ textContent := "AED 120", crossOut := true },
                                 { textContent := "AED 99", crossOut := false },
                                 { textContent := "Total: AED 99", crossOut := false }] }]
  buttonElements := 1

/-- A detail view on which every step succeeds. -/
def sampleDetail : Detail where
  click := .ok ()
  mileage := .ok "250 km, then 1 AED per km"
  insurance := .ok "Comprehensive Insurance"
  cookies := .ok ()

/-- A listing load that shows `dom` at every evaluation. -/
def listingOf (dom : Dom) : Listing where
  goto := .ok ()
  waitTitle := .ok ()
  waitFeatures := .ok ()
  waitPrice := .ok ()
  evaluate := fun _ => .ok dom
  detail := sampleDetail

/-- A listing load on which none of the primary selectors becomes visible. -/
def noCardsListing : Listing where
  goto := .ok ()
  waitTitle := .error "Timeout 5000ms exceeded"
  waitFeatures := .error "Timeout 5000ms exceeded"
  waitPrice := .error "Timeout 5000ms exceeded"
  evaluate := fun _ => .ok { carElements := [], featureDivs := [], priceDivs := [], buttonElements := 0 }
  detail := sampleDetail

/-- A listing load whose navigation fails. -/
def unreachableListing : Listing where
  goto := .error "net::ERR_CONNECTION_RESET"
  waitTitle := .ok ()
  waitFeatures := .ok ()
  waitPrice := .ok ()
  evaluate := fun _ => .error "Execution context was destroyed"
  detail := sampleDetail

/-- A job during which the flag is never set and every load is `l`. -/
def steadyJob (l : Listing) : JobEnv where
  cancelled := fun _ => false
  listing := fun _ => l

/-- A run on 1 January 2024, 08:00:00, in which vehicle 1 (the second of the
list) cannot be reached and every other vehicle shows one card. -/
def secondVehicleFails : RunEnv where
  pickupDate := { year := 2024, month := 1, day := 1 }
  baseTime := { hour := 8, minute := 0, second := 0 }
  cancelled := fun _ => false
  newPage := fun _ => .ok ()
  job := fun i _ => if i = 1 then steadyJob unreachableListing else steadyJob (listingOf sampleDom)

/-- The daily call for "kia seltos" on 1 January 2024, 08:00:00. -/
def sampleCall : JobCall :=
  windowCall istRuntime { year := 2024, month := 1, day := 1 }
    { hour := 8, minute := 0, second := 0 } "kia seltos" "kia/seltos" 1

/-- The sample document without any action control. -/
def noButtonDom : Dom := { sampleDom with buttonElements := 0 }

/-- A title element inside a card container. -/
def sampleTitle : TitleElement where
  textContent := "Kia Seltos"
  closestDiv := some { model := some "Kia Seltos 2023 or similar" }

/-- A title element without any `div` ancestor. -/
def orphanTitle : TitleElement where
  textContent := "Kia Seltos"
  closestDiv := none

/-- A document with eight full cards. -/
def eightCardDom : Dom where
  carElements := List.replicate 8 sampleTitle
  featureDivs := List.replicate 8 { spans := ["Automatic"] }
  priceDivs := List.replicate 8 { paragraphs := [{ textContent := "AED 99", crossOut := false }] }
  buttonElements := 8

/-- A document with five title elements, the fifth of which has no `div`
ancestor. -/
def orphanFifthDom : Dom where
  carElements := List.replicate 4 sampleTitle ++ [orphanTitle]
  featureDivs := List.replicate 5 { spans := ["Automatic"] }
  priceDivs := List.replicate 5 { paragraphs := [{ textContent := "AED 99", crossOut := false }] }
  buttonElements := 5

/-- A listing load whose first `page.evaluate` throws while any later one would
run the callback on the sample document. -/
def flakyListing : Listing where
  goto := .ok ()
  waitTitle := .ok ()
  waitFeatures := .ok ()
  waitPrice := .ok ()
  evaluate := fun attempt =>
    if attempt = 0 then .error "Execution context was destroyed" else .ok sampleDom
  detail := sampleDetail

/-- A run on 1 January 2024, 08:00:00, in which every vehicle shows one card and
the flag `isScrapingCancelled` is set once the jobs of the first vehicle are
done: it reads `false` before vehicle 0 and `true` from vehicle 1 on. -/
def cancelAfterFirst : RunEnv where
  pickupDate := { year := 2024, month := 1, day := 1 }
  baseTime := { hour := 8, minute := 0, second := 0 }
  cancelled := fun i => decide (1 ≤ i)
  newPage := fun _ => .ok ()
  job := fun _ _ => steadyJob (listingOf sampleDom)

/-- A job whose first listing load shows the sample card and whose every later
navigation to the listing fails; the flag is never set. -/
def reloadFails : JobEnv where
  cancelled := fun _ => false
  listing := fun n => if n = 0 then listingOf sampleDom else unreachableListing

/-- A listing load on which the selectors show but `page.evaluate` throws. -/
def evaluateThrowsListing : Listing where
  goto := .ok ()
  waitTitle := .ok ()
  waitFeatures := .ok ()
  waitPrice := .ok ()
  evaluate := fun _ => .error "Execution context was destroyed"
  detail := sampleDetail

/-- A job whose first listing load shows the sample card and on whose every
later load the primary selectors fail to become visible; the flag is never
set. -/
def reloadShowsNothing : JobEnv where
  cancelled := fun _ => false
  listing := fun n => if n = 0 then listingOf sampleDom else noCardsListing

/-- A job whose first listing load shows the sample card and on whose every
later load `page.evaluate` throws; the flag is never set. -/
def reloadEvaluateThrows : JobEnv where
  cancelled := fun _ => false
  listing := fun n => if n = 0 then listingOf sampleDom else evaluateThrowsListing

/-- A run on 1 January 2024, 08:00:00, in which every listing loads but the
primary selectors never become visible. -/
def noInventoryRun : RunEnv where
  pickupDate := { year := 2024, month := 1, day := 1 }
  baseTime := { hour := 8, minute := 0, second := 0 }
  cancelled := fun _ => false
  newPage := fun _ => .ok ()
  job := fun _ _ => steadyJob noCardsListing

/-- A price block with two struck-through prices, two current prices and a
Total line in the middle. -/
def sampleParagraphs : List Paragraph :=
  [{ textContent := " AED 150 ", crossOut := true },
   { textContent := "AED 120", crossOut := true },
   { textContent := "AED 99", crossOut := false },
   { textContent := " Total: AED 99 ", crossOut := false },
   { textContent := "AED 80", crossOut := false },
   { textContent := "3 days", crossOut := false }]

/-- A price block whose only paragraph spells the label in capitals. -/
def capitalTotalParagraphs : List Paragraph :=
  [{ textContent := "TOTAL: AED 99", crossOut := false }]

/-! # Theorems -/

/-! ## The card callback and the retry loop -/

theorem cardCallback_of_five_le (dom : Dom) (index : Nat) (carName periodName : String)
    (h : 5 ≤ index) : cardCallback dom index carName periodName = .ok none := by
  unfold cardCallback
  simp [h]

theorem retryLoop_of_five_le (l : Listing) (index : Nat) (carName periodName : String)
    (h : 5 ≤ index) (remaining retryCount : Nat) :
    retryLoop l index carName periodName remaining retryCount = none := by
  induction remaining generalizing retryCount with
  | zero => rfl
  | succ n ih =>
    unfold retryLoop evaluateCard
    cases l.evaluate retryCount with
    | error e => simpa using ih _
    | ok dom => simpa [cardCallback_of_five_le dom index carName periodName h] using ih _

theorem extractCard_of_five_le (l : Listing) (index : Nat) (carName periodName : String)
    (h : 5 ≤ index) : extractCard l index carName periodName = none :=
  retryLoop_of_five_le l index carName periodName h _ _

/-! ## Termination of the pagination loop -/

theorem scrapeLoop_isSome (env : JobEnv) (carName periodName : String) (fuel : Nat) :
    ∀ (loads index : Nat) (results : List Record), 1 ≤ fuel → 6 ≤ fuel + index →
      (scrapeLoop env carName periodName fuel loads index results).isSome = true := by
  induction fuel with
  | zero => intro _ _ _ h; omega
  | succ n ih =>
    intro loads index results _ hsum
    unfold scrapeLoop
    by_cases hc : env.cancelled loads = true
    · simp [hc]
    · simp only [hc]
      cases hg : (env.listing loads).goto with
      | error e => simp
      | ok u =>
        by_cases hv : selectorsVisible (env.listing loads) = true
        · simp only [hv]
          cases hx : extractCard (env.listing loads) index carName periodName with
          | none => simp
          | some cardData =>
            have hlt : index < 5 := by
              by_contra hge
              rw [extractCard_of_five_le _ _ _ _ (by omega)] at hx
              cases hx
            cases he : enrich cardData.hasButton (env.listing loads).detail
                (results ++ [cardData.data]) index with
            | error e => simp [he]
            | ok results2 =>
              simp only [he]
              exact ih (loads + 1) (index + 1) results2 (by omega) (by omega)
        · simp [hv]

theorem scrapeLoop_succ (env : JobEnv) (carName periodName : String) (fuel : Nat) :
    ∀ (loads index : Nat) (results : List Record) (exit : LoopExit),
      scrapeLoop env carName periodName fuel loads index results = some exit →
      scrapeLoop env carName periodName (fuel + 1) loads index results = some exit := by
  induction fuel with
  | zero => intro _ _ _ _ h; simp [scrapeLoop] at h
  | succ n ih =>
    intro loads index results exit h
    rw [scrapeLoop] at h
    rw [scrapeLoop]
    by_cases hc : env.cancelled loads = true
    · simpa [hc] using h
    · simp only [hc] at h ⊢
      cases hg : (env.listing loads).goto with
      | error e => simpa [hg] using h
      | ok u =>
        simp only [hg] at h ⊢
        by_cases hv : selectorsVisible (env.listing loads) = true
        · simp only [hv] at h ⊢
          cases hx : extractCard (env.listing loads) index carName periodName with
          | none => simpa [hx] using h
          | some cardData =>
            simp only [hx] at h ⊢
            cases he : enrich cardData.hasButton (env.listing loads).detail
                (results ++ [cardData.data]) index with
            | error e => simpa [he] using h
            | ok results2 =>
              simp only [he] at h ⊢
              exact ih _ _ _ _ h
        · simpa [hv] using h

theorem scrapeLoop_of_le (env : JobEnv) (carName periodName : String) (fuel extra : Nat)
    (loads index : Nat) (results : List Record) (exit : LoopExit)
    (h : scrapeLoop env carName periodName fuel loads index results = some exit) :
    scrapeLoop env carName periodName (fuel + extra) loads index results = some exit := by
  induction extra with
  | zero => simpa using h
  | succ n ih => exact scrapeLoop_succ env carName periodName (fuel + n) _ _ _ _ ih

theorem scrapeCarData_of_fuel (env : JobEnv) (call : JobCall) (fuel : Nat) (h : 6 ≤ fuel) :
    scrapeCarData env call fuel = some (jobOutcome env call, jobLoads env call) := by
  have hsome := scrapeLoop_isSome env call.carName call.periodName 6 0 0 [] (by omega) (by omega)
  obtain ⟨exit, hexit⟩ := Option.isSome_iff_exists.mp hsome
  have hfuel := scrapeLoop_of_le env call.carName call.periodName 6 (fuel - 6) 0 0 [] exit hexit
  rw [show 6 + (fuel - 6) = fuel by omega] at hfuel
  simp [scrapeCarData, jobOutcome, jobLoads, hfuel, hexit]

/-! ## Outcomes of the period scraper -/

theorem jobOutcome_eq_outcomeOf (env : JobEnv) (call : JobCall) :
    ∃ exit, scrapeLoop env call.carName call.periodName 6 0 0 [] = some exit ∧
      jobOutcome env call = outcomeOf call.carName call.periodName exit ∧
      jobLoads env call = exit.loads := by
  have hsome := scrapeLoop_isSome env call.carName call.periodName 6 0 0 [] (by omega) (by omega)
  obtain ⟨exit, hexit⟩ := Option.isSome_iff_exists.mp hsome
  exact ⟨exit, hexit, by simp [jobOutcome, scrapeCarData, hexit],
    by simp [jobLoads, scrapeCarData, hexit]⟩

theorem outcomeOf_success (carName periodName : String) (exit : LoopExit)
    (h : (outcomeOf carName periodName exit).success = true) :
    (outcomeOf carName periodName exit).data ≠ [] ∧
      (outcomeOf carName periodName exit).data = exit.results ∧ exit.thrown = none := by
  unfold outcomeOf at h ⊢
  cases ht : exit.thrown with
  | some msg => simp [ht] at h
  | none =>
    simp only [ht] at h ⊢
    by_cases hz : exit.results.length = 0
    · simp [hz] at h
    · simp only [hz, if_false]
      constructor
      · intro hnil
        exact hz (by simp [hnil])
      · simp

theorem outcomeOf_failure (carName periodName : String) (exit : LoopExit)
    (h : (outcomeOf carName periodName exit).success = false) :
    (outcomeOf carName periodName exit).data = [] ∧
      ∃ msg, (outcomeOf carName periodName exit).message = some msg := by
  unfold outcomeOf at h ⊢
  cases ht : exit.thrown with
  | some msg => simp
  | none =>
    simp only [ht] at h ⊢
    by_cases hz : exit.results.length = 0
    · simp [hz]
    · simp [hz] at h

theorem jobOutcome_success (env : JobEnv) (call : JobCall)
    (h : (jobOutcome env call).success = true) : (jobOutcome env call).data ≠ [] := by
  obtain ⟨exit, -, heq, -⟩ := jobOutcome_eq_outcomeOf env call
  rw [heq] at h ⊢
  exact (outcomeOf_success _ _ exit h).1

theorem jobOutcome_failure (env : JobEnv) (call : JobCall)
    (h : (jobOutcome env call).success = false) :
    (jobOutcome env call).data = [] ∧ ∃ msg, (jobOutcome env call).message = some msg := by
  obtain ⟨exit, -, heq, -⟩ := jobOutcome_eq_outcomeOf env call
  rw [heq] at h ⊢
  exact outcomeOf_failure _ _ exit h

/-! ## The orchestration loop -/

theorem successData_append (a b : List JobResult) :
    successData (a ++ b) = successData a ++ successData b := by
  induction a with
  | nil => rfl
  | cons r rest ih => simp [successData, ih]

theorem failureLabels_append (a b : List JobResult) :
    failureLabels (a ++ b) = failureLabels a ++ failureLabels b := by
  induction a with
  | nil => rfl
  | cons r rest ih => simp [failureLabels, ih]

theorem validationErrors_of_nonempty (names : List String) (h : ∀ n ∈ names, n ≠ "") :
    validationErrors (names.map CarName.str) = [] := by
  induction names with
  | nil => rfl
  | cons n rest ih =>
    have hn : n ≠ "" := h n (by simp)
    have hlen : ¬ n.length < 1 := by
      intro hlt
      apply hn
      have h0 : n.data.length = 0 := by
        have : n.length = n.data.length := rfl
        omega
      have hd : n.data = [] := List.length_eq_zero.mp h0
      cases n
      simp_all
    have ih2 := ih (fun m hm => h m (by simp [hm]))
    simp [validationErrors, validateCarName, hn, hlen, ih2]

theorem jobCall_carName (rt : JsRuntime) (pickupDate : Ymd) (baseTime : Hms)
    (carName formattedCarName : String) (months : Nat) (kind : Kind) :
    (jobCall rt pickupDate baseTime carName formattedCarName months kind).carName = carName := by
  cases kind <;> rfl

theorem jobStep_run (rt : JsRuntime) (env : RunEnv) (months fuel i : Nat) (carName : String)
    (kind : Kind) (enabled : Bool) (acc : Acc) (hfuel : 6 ≤ fuel) :
    ∃ acc1, jobStep rt env months fuel i carName
        (formatCarNameForUrl rt (rt.toLowerCase carName)) kind enabled acc = some acc1 ∧
      acc1.scrapedData = acc.scrapedData ++
        successData (if enabled then [jobResult rt env months i carName kind] else []) ∧
      acc1.errors = acc.errors ++
        failureLabels (if enabled then [jobResult rt env months i carName kind] else []) ∧
      acc1.calls = acc.calls ++
        (if enabled then [jobResult rt env months i carName kind] else []).map JobResult.call := by
  cases enabled with
  | false => exact ⟨acc, by simp [jobStep, successData, failureLabels]⟩
  | true =>
    have hc := jobCall_carName rt env.pickupDate env.baseTime carName
      (formatCarNameForUrl rt (rt.toLowerCase carName)) months kind
    simp only [jobStep, if_true, runJob, scrapeCarData_of_fuel _ _ fuel hfuel]
    by_cases hs : (jobOutcome (env.job i kind)
        (jobCall rt env.pickupDate env.baseTime carName
          (formatCarNameForUrl rt (rt.toLowerCase carName)) months kind)).success = true
    · refine ⟨_, by rw [if_pos hs], ?_, ?_, ?_⟩ <;>
        simp [successData, failureLabels, jobResult, hs]
    · have hs2 : (jobOutcome (env.job i kind)
          (jobCall rt env.pickupDate env.baseTime carName
            (formatCarNameForUrl rt (rt.toLowerCase carName)) months kind)).success = false := by
        simpa using hs
      refine ⟨_, by rw [if_neg hs], ?_, ?_, ?_⟩ <;>
        simp [successData, failureLabels, failureLabel, jobResult, hs2, hc]

theorem map_enabledKinds {β : Type} (f : Kind → β) (d w m : Bool) (months : Nat) :
    (enabledKinds d w m months).map f =
      (if d then [f Kind.daily] else []) ++ (if w then [f Kind.weekly] else []) ++
        (if (m && decide (months ≠ 0)) = true then [f Kind.monthly] else []) := by
  unfold enabledKinds
  cases d <;> cases w <;> cases (m && decide (months ≠ 0)) <;> rfl

theorem vehicleJobs_run (rt : JsRuntime) (env : RunEnv) (d w m : Bool) (months fuel i : Nat)
    (carName : String) (acc : Acc) (hfuel : 6 ≤ fuel) :
    ∃ acc1, vehicleJobs rt env d w m months fuel i carName
        (formatCarNameForUrl rt (rt.toLowerCase carName)) acc = some acc1 ∧
      acc1.scrapedData = acc.scrapedData ++
        successData ((enabledKinds d w m months).map (jobResult rt env months i carName)) ∧
      acc1.errors = acc.errors ++
        failureLabels ((enabledKinds d w m months).map (jobResult rt env months i carName)) ∧
      acc1.calls = acc.calls ++
        ((enabledKinds d w m months).map (jobResult rt env months i carName)).map
          JobResult.call := by
  obtain ⟨a1, h1, hd1, he1, hc1⟩ := jobStep_run rt env months fuel i carName .daily d acc hfuel
  obtain ⟨a2, h2, hd2, he2, hc2⟩ := jobStep_run rt env months fuel i carName .weekly w a1 hfuel
  obtain ⟨a3, h3, hd3, he3, hc3⟩ := jobStep_run rt env months fuel i carName .monthly
    (m && decide (months ≠ 0)) a2 hfuel
  refine ⟨a3, by simp only [vehicleJobs, h1, h2, h3], ?_, ?_, ?_⟩
  · rw [hd3, hd2, hd1, map_enabledKinds, successData_append, successData_append]
    simp [List.append_assoc]
  · rw [he3, he2, he1, map_enabledKinds, failureLabels_append, failureLabels_append]
    simp [List.append_assoc]
  · rw [hc3, hc2, hc1, map_enabledKinds]
    simp [List.append_assoc]

/-- The vehicle loop over a block `pre` of string names during which the flag is
never read as set and every page opens: the loop reaches the rest of the list
with the jobs of the block recorded. -/
theorem vehicleLoop_block (rt : JsRuntime) (env : RunEnv) (d w m : Bool) (months fuel : Nat)
    (hfuel : 6 ≤ fuel) (pre : List String) :
    ∀ (post : List CarName) (i : Nat) (acc : Acc),
      (∀ j, i ≤ j → j < i + pre.length → env.cancelled j = false) →
      (∀ j, i ≤ j → j < i + pre.length → env.newPage j = .ok ()) →
      ∃ acc1,
        vehicleLoop rt env d w m months fuel (pre.map CarName.str ++ post) i acc =
          vehicleLoop rt env d w m months fuel post (i + pre.length) acc1 ∧
        acc1.scrapedData = acc.scrapedData ++
          successData (jobResults rt env (enabledKinds d w m months) months pre i) ∧
        acc1.errors = acc.errors ++
          failureLabels (jobResults rt env (enabledKinds d w m months) months pre i) ∧
        acc1.calls = acc.calls ++
          (jobResults rt env (enabledKinds d w m months) months pre i).map JobResult.call := by
  induction pre with
  | nil =>
    intro post i acc _ _
    exact ⟨acc, by simp, by simp [jobResults, successData], by simp [jobResults, failureLabels],
      by simp [jobResults]⟩
  | cons name rest ih =>
    intro post i acc hcancel hpage
    obtain ⟨a1, hj, hd1, he1, hc1⟩ := vehicleJobs_run rt env d w m months fuel i name acc hfuel
    have hci : env.cancelled i = false := hcancel i (by omega) (by simp)
    have hpi : env.newPage i = .ok () := hpage i (by omega) (by simp)
    obtain ⟨a2, hl, hd2, he2, hc2⟩ := ih post (i + 1) a1
      (fun j h1 h2 => hcancel j (by omega) (by simp at h2 ⊢; omega))
      (fun j h1 h2 => hpage j (by omega) (by simp at h2 ⊢; omega))
    refine ⟨a2, ?_, ?_, ?_, ?_⟩
    · simp only [List.map_cons, List.cons_append, vehicleLoop, hci, CarName.toLowerCase, hpi,
        CarName.text, hj, List.length_cons]
      rw [show i + (rest.length + 1) = i + 1 + rest.length by omega]
      simpa using hl
    · rw [hd2, hd1, jobResults, successData_append, List.append_assoc]
    · rw [he2, he1, jobResults, failureLabels_append, List.append_assoc]
    · rw [hc2, hc1, jobResults, List.map_append, List.append_assoc]

theorem jobResults_outcome (rt : JsRuntime) (env : RunEnv) (kinds : List Kind) (months : Nat)
    (names : List String) :
    ∀ (i : Nat) (r : JobResult), r ∈ jobResults rt env kinds months names i →
      ∃ (e : JobEnv) (call : JobCall), r.outcome = jobOutcome e call := by
  induction names with
  | nil => intro i r h; simp [jobResults] at h
  | cons name rest ih =>
    intro i r h
    simp only [jobResults, List.mem_append, List.mem_map] at h
    rcases h with ⟨k, -, rfl⟩ | h
    · exact ⟨_, _, rfl⟩
    · exact ih _ _ h

theorem successData_ne_nil (jobs : List JobResult)
    (hall : ∀ r ∈ jobs, r.outcome.success = true → r.outcome.data ≠ [])
    (hex : ∃ r ∈ jobs, r.outcome.success = true) : successData jobs ≠ [] := by
  induction jobs with
  | nil => simp at hex
  | cons r rest ih =>
    obtain ⟨x, hx, hs⟩ := hex
    simp only [List.mem_cons] at hx
    rcases hx with rfl | hx
    · have := hall x (by simp) hs
      simp [successData, hs, this]
    · have := ih (fun y hy => hall y (by simp [hy])) ⟨x, hx, hs⟩
      simp [successData, this]

theorem scrapeCars_run (rt : JsRuntime) (env : RunEnv) (fuel : Nat) (start : List Record)
    (names : List String) (d w m : Bool) (months : Nat)
    (hfuel : 6 ≤ fuel) (hnames : ∀ n ∈ names, n ≠ "")
    (hcancel : ∀ i, i < names.length → env.cancelled i = false)
    (hpage : ∀ i, i < names.length → env.newPage i = .ok ()) :
    ∃ run, scrapeCars rt env fuel start (names.map CarName.str) d w m months = some run ∧
      run.report = finalReport (start ++ successData (runJobs rt env d w m months names))
        (failureLabels (runJobs rt env d w m months names)) ∧
      run.scrapedData = start ++ successData (runJobs rt env d w m months names) ∧
      run.errors = failureLabels (runJobs rt env d w m months names) ∧
      run.calls = (runJobs rt env d w m months names).map JobResult.call := by
  obtain ⟨acc1, hl, hd, he, hc⟩ := vehicleLoop_block rt env d w m months fuel hfuel names [] 0
    { scrapedData := start, errors := [], calls := [], loads := 0 }
    (fun j _ h => hcancel j (by omega)) (fun j _ h => hpage j (by omega))
  simp only [List.append_nil, vehicleLoop] at hl
  simp only [List.nil_append] at he hc
  refine ⟨{ report := finalReport acc1.scrapedData acc1.errors, scrapedData := acc1.scrapedData,
            errors := acc1.errors, calls := acc1.calls, loads := acc1.loads },
    ?_, ?_, ?_, ?_, ?_⟩
  · simp [scrapeCars, validationErrors_of_nonempty names hnames, hl]
  · simp [hd, he, runJobs]
  · simp [hd, runJobs]
  · simp [he, runJobs]
  · simp [hc, runJobs]

/-- C1: with all names non-empty, the flag never read as set by the orchestrator,
every page opening and an empty accumulator at start, `scrapeCars` returns a
report that has `success = true` as soon as one job succeeded, whose data is
exactly the concatenation of the records of the successful jobs in job order
(absent when there is none), while a failed job contributes no record, and whose
message carries the labelled messages of the failed jobs, one each, in job
order, joined by `"; "`. -/
theorem scrapeCars_partial_failure_aggregation (rt : JsRuntime) (env : RunEnv) (fuel : Nat)
    (names : List String) (d w m : Bool) (months : Nat)
    (hfuel : 6 ≤ fuel) (hnames : ∀ n ∈ names, n ≠ "")
    (hcancel : ∀ i, env.cancelled i = false)
    (hpage : ∀ i, env.newPage i = .ok ()) :
    ∃ run, scrapeCars rt env fuel [] (names.map CarName.str) d w m months = some run ∧
      ((∃ r ∈ runJobs rt env d w m months names, r.outcome.success = true) →
        run.report.success = true) ∧
      run.report.data =
        (if successData (runJobs rt env d w m months names) = [] then none
         else some (successData (runJobs rt env d w m months names))) ∧
      (∀ r ∈ runJobs rt env d w m months names, r.outcome.success = false →
        r.outcome.data = []) ∧
      run.report.message =
        (if failureLabels (runJobs rt env d w m months names) = [] then
          (if successData (runJobs rt env d w m months names) = [] then "No data scraped"
           else "Scraping completed successfully")
         else if successData (runJobs rt env d w m months names) = [] then
          "; ".intercalate (failureLabels (runJobs rt env d w m months names))
         else "Scraping completed with errors: " ++
          "; ".intercalate (failureLabels (runJobs rt env d w m months names))) := by
  obtain ⟨run, hrun, hrep, -, -, -⟩ := scrapeCars_run rt env fuel [] names d w m months hfuel hnames
    (fun i _ => hcancel i) (fun i _ => hpage i)
  have hout : ∀ r ∈ runJobs rt env d w m months names,
      ∃ (e : JobEnv) (call : JobCall), r.outcome = jobOutcome e call :=
    fun r hr => jobResults_outcome rt env _ months names 0 r hr
  refine ⟨run, hrun, ?_, ?_, ?_, ?_⟩
  · intro hex
    have hne := successData_ne_nil _ (fun r hr hs => by
      obtain ⟨e, call, heq⟩ := hout r hr
      rw [heq] at hs ⊢
      exact jobOutcome_success e call hs) hex
    simp [hrep, finalReport, hne]
  · by_cases hnil : successData (runJobs rt env d w m months names) = []
    · simp [hrep, finalReport, hnil]
    · simp [hrep, finalReport, hnil]
  · intro r hr hs
    obtain ⟨e, call, heq⟩ := hout r hr
    rw [heq] at hs ⊢
    exact (jobOutcome_failure e call hs).1
  · by_cases hnil : successData (runJobs rt env d w m months names) = [] <;>
      by_cases hlab : failureLabels (runJobs rt env d w m months names) = [] <;>
      simp [hrep, finalReport, hnil, hlab]

theorem scrapeCars_partial_failure_aggregation_witness :
    ∃ run, scrapeCars istRuntime secondVehicleFails 6 []
        (["kia seltos", "mg 5", "jac j7"].map CarName.str) true false false 1 = some run ∧
      run.report.success = true ∧
      run.report.data.map List.length = some 2 ∧
      run.report.message =
        "Scraping completed with errors: Daily scrape failed for mg 5: net::ERR_CONNECTION_RESET" := by
  obtain ⟨run, hrun, -, -, -, -⟩ := scrapeCars_partial_failure_aggregation istRuntime
    secondVehicleFails 6 ["kia seltos", "mg 5", "jac j7"] true false false 1 (by decide)
    (by decide) (fun _ => rfl) (fun _ => rfl)
  refine ⟨run, hrun, ?_⟩
  have hval : scrapeCars istRuntime secondVehicleFails 6 []
      (["kia seltos", "mg 5", "jac j7"].map CarName.str) true false false 1 =
      some run → run.report.success = true ∧ run.report.data.map List.length = some 2 ∧
        run.report.message =
          "Scraping completed with errors: Daily scrape failed for mg 5: net::ERR_CONNECTION_RESET" := by
    intro h
    have hrep : (scrapeCars istRuntime secondVehicleFails 6 []
      (["kia seltos", "mg 5", "jac j7"].map CarName.str) true false false 1).map
        (fun r => (r.report.success, r.report.data.map List.length, r.report.message)) =
        some (true, some 2,
          "Scraping completed with errors: Daily scrape failed for mg 5: net::ERR_CONNECTION_RESET") := by
      decide
    rw [h] at hrep
    simp only [Option.map_some', Option.some.injEq, Prod.mk.injEq] at hrep
    exact hrep
  exact hval hrun

/-! ## Records -/

theorem Record.keys_set (r : Record) (k v : String) :
    (r.set k v).keys = if k ∈ r.keys then r.keys else r.keys ++ [k] := by
  induction r with
  | nil => simp [Record.set, Record.keys]
  | cons kv rest ih =>
    obtain ⟨a, b⟩ := kv
    by_cases hak : a = k
    · simp [Record.set, Record.keys, hak]
    · have hka : ¬ k = a := fun h => hak h.symm
      simp only [Record.keys] at ih
      by_cases hm : k ∈ List.map Prod.fst rest
      · simp [Record.set, Record.keys, hak, hka, hm, ih]
      · simp [Record.set, Record.keys, hak, hka, hm, ih]

theorem Record.keys_nil : Record.keys [] = [] := rfl

theorem Record.get?_set_self (r : Record) (k v : String) : (r.set k v).get? k = some v := by
  induction r with
  | nil => simp [Record.set, Record.get?]
  | cons kv rest ih =>
    obtain ⟨a, b⟩ := kv
    by_cases hak : a = k
    · simp [Record.set, Record.get?, hak]
    · simp [Record.set, Record.get?, hak, ih]

theorem Record.get?_set_ne (r : Record) (k v j : String) (h : j ≠ k) :
    (r.set k v).get? j = r.get? j := by
  induction r with
  | nil =>
    have : ¬ k = j := fun e => h e.symm
    simp [Record.set, Record.get?, this]
  | cons kv rest ih =>
    obtain ⟨a, b⟩ := kv
    by_cases hak : a = k
    · have : ¬ k = j := fun e => h e.symm
      simp [Record.set, Record.get?, hak, this]
    · by_cases haj : a = j
      · subst haj
        simp [Record.set, Record.get?, hak]
      · simp [Record.set, Record.get?, hak, haj, ih]

theorem cardCallback_keys (dom : Dom) (index : Nat) (carName periodName : String)
    (card : CardData) (h : cardCallback dom index carName periodName = .ok (some card)) :
    card.data.keys = fieldNames.take 9 := by
  unfold cardCallback at h
  split at h
  · cases h
  · split at h
    · cases h
    · split at h
      · cases h
      · simp only [Except.ok.injEq, Option.some.injEq] at h
        subst h
        split <;> split <;> simp [Record.keys_set, Record.keys_nil, fieldNames]

theorem retryLoop_some (l : Listing) (index : Nat) (carName periodName : String)
    (card : CardData) (remaining : Nat) :
    ∀ retryCount, retryLoop l index carName periodName remaining retryCount = some card →
      ∃ attempt dom, retryCount ≤ attempt ∧ attempt < retryCount + remaining ∧
        l.evaluate attempt = .ok dom ∧
        cardCallback dom index carName periodName = .ok (some card) := by
  induction remaining with
  | zero => intro _ h; simp [retryLoop] at h
  | succ n ih =>
    intro retryCount h
    rw [retryLoop] at h
    cases hev : evaluateCard l retryCount index carName periodName with
    | error e =>
      rw [hev] at h
      obtain ⟨a, dom, h1, h2, h3⟩ := ih _ h
      exact ⟨a, dom, by omega, by omega, h3⟩
    | ok res =>
      rw [hev] at h
      cases res with
      | none =>
        obtain ⟨a, dom, h1, h2, h3⟩ := ih _ h
        exact ⟨a, dom, by omega, by omega, h3⟩
      | some c =>
        simp only [Option.some.injEq] at h
        subst h
        unfold evaluateCard at hev
        cases hd : l.evaluate retryCount with
        | error e => simp [hd] at hev
        | ok dom =>
          simp only [hd] at hev
          exact ⟨retryCount, dom, by omega, by omega, hd, hev⟩

theorem extractCard_keys (l : Listing) (index : Nat) (carName periodName : String)
    (card : CardData) (h : extractCard l index carName periodName = some card) :
    card.data.keys = fieldNames.take 9 := by
  obtain ⟨_, dom, -, -, -, hcb⟩ := retryLoop_some l index carName periodName card _ _ h
  exact cardCallback_keys dom index carName periodName card hcb

/-! ## Enrichment -/

theorem setAt_last (results : List Record) (x : Record) (k v : String) :
    setAt (results ++ [x]) results.length k v = .ok (results ++ [x.set k v]) := by
  simp [setAt]

theorem complete_after_sets (x : Record) (hx : x.keys = fieldNames.take 9) (mi ins : String) :
    ((x.set "Mileage" mi).set "Insurance & Options" ins).keys = fieldNames ∧
    (∀ k, k ≠ "Mileage" → k ≠ "Insurance & Options" →
      ((x.set "Mileage" mi).set "Insurance & Options" ins).get? k = x.get? k) ∧
    ((x.set "Mileage" mi).set "Insurance & Options" ins).get? "Mileage" = some mi ∧
    ((x.set "Mileage" mi).set "Insurance & Options" ins).get? "Insurance & Options" =
      some ins := by
  refine ⟨?_, ?_, ?_, ?_⟩
  · simp [Record.keys_set, hx, fieldNames]
  · intro k h1 h2
    rw [Record.get?_set_ne _ _ _ _ h2, Record.get?_set_ne _ _ _ _ h1]
  · rw [Record.get?_set_ne _ _ _ _ (by decide), Record.get?_set_self]
  · rw [Record.get?_set_self]

theorem complete_after_resets (x : Record) (hx : x.keys = fieldNames.take 9)
    (mi ins : String) :
    ((((x.set "Mileage" mi).set "Insurance & Options" ins).set "Mileage" NA).set
        "Insurance & Options" NA).keys = fieldNames ∧
    (∀ k, k ≠ "Mileage" → k ≠ "Insurance & Options" →
      ((((x.set "Mileage" mi).set "Insurance & Options" ins).set "Mileage" NA).set
        "Insurance & Options" NA).get? k = x.get? k) ∧
    ((((x.set "Mileage" mi).set "Insurance & Options" ins).set "Mileage" NA).set
        "Insurance & Options" NA).get? "Mileage" = some NA ∧
    ((((x.set "Mileage" mi).set "Insurance & Options" ins).set "Mileage" NA).set
        "Insurance & Options" NA).get? "Insurance & Options" = some NA := by
  refine ⟨?_, ?_, ?_, ?_⟩
  · simp [Record.keys_set, hx, fieldNames]
  · intro k h1 h2
    rw [Record.get?_set_ne _ _ _ _ h2, Record.get?_set_ne _ _ _ _ h1,
      Record.get?_set_ne _ _ _ _ h2, Record.get?_set_ne _ _ _ _ h1]
  · rw [Record.get?_set_ne _ _ _ _ (by decide), Record.get?_set_self]
  · rw [Record.get?_set_self]

/-- The enrichment of the record just pushed: it never throws, and it leaves a
record with the eleven fields in place of the pushed one. -/
theorem enrich_last (card : CardData) (d : Detail) (results : List Record)
    (hx : card.data.keys = fieldNames.take 9) :
    ∃ y, enrich card.hasButton d (results ++ [card.data]) results.length =
        .ok (results ++ [y]) ∧ CompleteFor card y := by
  have hNA := complete_after_sets card.data hx NA NA
  unfold enrich
  cases hb : card.hasButton with
  | false =>
    refine ⟨(card.data.set "Mileage" NA).set "Insurance & Options" NA, ?_, ?_⟩
    · simp [markUnavailable, setAt_last]
    · exact ⟨hNA.1, hNA.2.1, fun _ => ⟨hNA.2.2.1, hNA.2.2.2⟩⟩
  | true =>
    simp only [if_true]
    unfold detailSteps
    cases d.click with
    | error e =>
      exact ⟨_, by simp [markUnavailable, setAt_last],
        hNA.1, hNA.2.1, fun h => by simp [hb] at h⟩
    | ok u =>
      cases d.mileage with
      | error e =>
        exact ⟨_, by simp [markUnavailable, setAt_last],
          hNA.1, hNA.2.1, fun h => by simp [hb] at h⟩
      | ok mi =>
        cases d.insurance with
        | error e =>
          exact ⟨_, by simp [markUnavailable, setAt_last],
            hNA.1, hNA.2.1, fun h => by simp [hb] at h⟩
        | ok ins =>
          have h1 := complete_after_sets card.data hx mi ins
          have h2 := complete_after_resets card.data hx mi ins
          cases d.cookies with
          | error e =>
            exact ⟨_, by simp [markUnavailable, setAt_last],
              h2.1, h2.2.1, fun h => by simp [hb] at h⟩
          | ok u2 =>
            exact ⟨_, by simp [setAt_last],
              h1.1, h1.2.1, fun h => by simp [hb] at h⟩

/-! ## The invariant of the pagination loop -/

/-- Started with `index` and the number of loads both equal to the number of
records collected, the loop keeps that equality; every record it leaves was
extracted at its own index, and the index never passes five. -/
theorem scrapeLoop_invariant (env : JobEnv) (carName periodName : String) (fuel : Nat) :
    ∀ (results : List Record) (exit : LoopExit),
      scrapeLoop env carName periodName fuel results.length results.length results =
        some exit →
      results.length ≤ 5 →
      (∀ i r, results[i]? = some r → ExtractedAt env carName periodName i r) →
      exit.index = exit.results.length ∧ exit.index ≤ 5 ∧
      (∀ i r, exit.results[i]? = some r → ExtractedAt env carName periodName i r) ∧
      StoppedAt env carName periodName exit := by
  induction fuel with
  | zero => intro _ _ h; simp [scrapeLoop] at h
  | succ n ih =>
    intro results exit h hlen hinv
    rw [scrapeLoop] at h
    cases hc : env.cancelled results.length with
    | true =>
      simp only [hc, if_true, Option.some.injEq] at h
      subst h
      exact ⟨rfl, hlen, hinv, Or.inl ⟨hc, rfl, rfl⟩⟩
    | false =>
      simp only [hc, Bool.false_eq_true, if_false] at h
      cases hg : (env.listing results.length).goto with
      | error e =>
        simp only [hg, Option.some.injEq] at h
        subst h
        exact ⟨rfl, hlen, hinv, Or.inr (Or.inl ⟨hc, ⟨e, hg, rfl⟩, rfl⟩)⟩
      | ok u =>
        simp only [hg] at h
        cases hv : selectorsVisible (env.listing results.length) with
        | false =>
          simp only [hv, Bool.false_eq_true, if_false, Option.some.injEq] at h
          subst h
          exact ⟨rfl, hlen, hinv, Or.inr (Or.inr ⟨hc, hg, Or.inl hv, rfl, rfl⟩)⟩
        | true =>
          simp only [hv, if_true] at h
          cases hx : extractCard (env.listing results.length) results.length carName
              periodName with
          | none =>
            simp only [hx, Option.some.injEq] at h
            subst h
            exact ⟨rfl, hlen, hinv, Or.inr (Or.inr ⟨hc, hg, Or.inr hx, rfl, rfl⟩)⟩
          | some card =>
            simp only [hx] at h
            have hlt : results.length < 5 := by
              by_contra hge
              rw [extractCard_of_five_le _ _ _ _ (by omega)] at hx
              cases hx
            obtain ⟨y, hy, hcomplete⟩ := enrich_last card (env.listing results.length).detail
              results (extractCard_keys _ _ _ _ card hx)
            simp only [hy] at h
            have hlen2 : (results ++ [y]).length = results.length + 1 := by simp
            rw [← hlen2] at h
            refine ih (results ++ [y]) exit h (by omega) ?_
            intro i r hir
            by_cases hi : i < results.length
            · exact hinv i r (by simpa [List.getElem?_append_left hi] using hir)
            · have hi2 : i = results.length := by
                have := (List.getElem?_eq_some_iff.mp hir).1
                simp at this
                omega
              subst hi2
              have hr : r = y := by simpa using hir.symm
              subst hr
              exact ⟨hc, hg, hv, card, hx, hcomplete⟩

/-- The run of `scrapeCarData` with enough fuel, read through the loop
invariant: the loop is left at `exit`, whose records were each extracted at
their own index. -/
theorem scrapeCarData_exit (env : JobEnv) (call : JobCall) (fuel : Nat) (hfuel : 6 ≤ fuel) :
    ∃ exit, scrapeCarData env call fuel =
        some (outcomeOf call.carName call.periodName exit, exit.loads) ∧
      exit.index = exit.results.length ∧ exit.index ≤ 5 ∧
      (∀ i r, exit.results[i]? = some r →
        ExtractedAt env call.carName call.periodName i r) ∧
      StoppedAt env call.carName call.periodName exit := by
  obtain ⟨exit, hexit, hout, hloads⟩ := jobOutcome_eq_outcomeOf env call
  have hinv := scrapeLoop_invariant env call.carName call.periodName 6 [] exit hexit
    (by simp) (by simp)
  exact ⟨exit, by rw [scrapeCarData_of_fuel env call fuel hfuel, hout, hloads], hinv⟩

theorem outcomeOf_data_sub (carName periodName : String) (exit : LoopExit) (i : Nat)
    (r : Record) (h : (outcomeOf carName periodName exit).data[i]? = some r) :
    exit.results[i]? = some r := by
  unfold outcomeOf at h
  cases ht : exit.thrown with
  | some msg => simp [ht] at h
  | none =>
    simp only [ht] at h
    by_cases hz : exit.results.length = 0
    · simp [hz] at h
    · simpa [hz] using h

/-- C2: every record of the data returned by `scrapeCarData` has exactly the
eleven fields, whatever the enrichment did; each record stands at the index of
the card it was extracted from and keeps the nine fields of that card, and when
that card has no action control its `Mileage` and `Insurance & Options` are both
the sentinel `"N/A"`. -/
theorem scrapeCarData_records_complete (env : JobEnv) (call : JobCall) (fuel : Nat)
    (hfuel : 6 ≤ fuel) :
    ∃ outcome loads, scrapeCarData env call fuel = some (outcome, loads) ∧
      (∀ r ∈ outcome.data, r.keys = fieldNames) ∧
      (∀ i r, outcome.data[i]? = some r →
        ∃ card, extractCard (env.listing i) i call.carName call.periodName = some card ∧
          (∀ k, k ≠ "Mileage" → k ≠ "Insurance & Options" →
            r.get? k = card.data.get? k) ∧
          (card.hasButton = false →
            r.get? "Mileage" = some NA ∧ r.get? "Insurance & Options" = some NA)) := by
  obtain ⟨exit, hrun, -, -, hinv, -⟩ := scrapeCarData_exit env call fuel hfuel
  refine ⟨_, _, hrun, ?_, ?_⟩
  · intro r hr
    obtain ⟨i, hi⟩ := List.getElem?_of_mem hr
    obtain ⟨-, -, -, card, -, hkeys, -, -⟩ := hinv i r (outcomeOf_data_sub _ _ exit i r hi)
    exact hkeys
  · intro i r hi
    obtain ⟨-, -, -, card, hcard, -, hsame, hna⟩ :=
      hinv i r (outcomeOf_data_sub _ _ exit i r hi)
    exact ⟨card, hcard, hsame, hna⟩

theorem scrapeCarData_records_complete_witness :
    6 ≤ 6 ∧
    (scrapeCarData (steadyJob (listingOf noButtonDom)) sampleCall 6).map
        (fun res => res.1.data.map Record.keys) = some [fieldNames] ∧
    ∃ outcome loads,
      scrapeCarData (steadyJob (listingOf noButtonDom)) sampleCall 6 = some (outcome, loads) ∧
      (∀ r ∈ outcome.data, r.keys = fieldNames) ∧
      (∀ i r, outcome.data[i]? = some r →
        ∃ card, extractCard ((steadyJob (listingOf noButtonDom)).listing i) i
            sampleCall.carName sampleCall.periodName = some card ∧
          (∀ k, k ≠ "Mileage" → k ≠ "Insurance & Options" →
            r.get? k = card.data.get? k) ∧
          (card.hasButton = false →
            r.get? "Mileage" = some NA ∧ r.get? "Insurance & Options" = some NA)) :=
  ⟨by decide, by decide,
    scrapeCarData_records_complete (steadyJob (listingOf noButtonDom)) sampleCall 6 (by decide)⟩

/-! ## The cap on the index and the single attempt -/

/-- C3 (as amended): at every index from five on the card callback returns
`null` whatever the document holds, and the extraction with its retry loop
yields no card; at index four, a title element that has an enclosing `div`
yields a record. -/
theorem cardCallback_cap_boundary :
    (∀ (dom : Dom) (index : Nat) (carName periodName : String), 5 ≤ index →
      cardCallback dom index carName periodName = .ok none ∧
      ∀ l : Listing, extractCard l index carName periodName = none) ∧
    (∀ (dom : Dom) (carName periodName : String) (title : TitleElement)
      (container : Container),
      dom.carElements[4]? = some title → title.closestDiv = some container →
      ∃ card, cardCallback dom 4 carName periodName = .ok (some card)) := by
  constructor
  · intro dom index carName periodName h
    exact ⟨cardCallback_of_five_le dom index carName periodName h,
      fun l => extractCard_of_five_le l index carName periodName h⟩
  · intro dom carName periodName title container ht hc
    unfold cardCallback
    simp [ht, hc]

theorem cardCallback_cap_boundary_witness :
    (5 ≤ 7 ∧ cardCallback eightCardDom 7 "kia seltos" "daily" = .ok none) ∧
    (eightCardDom.carElements[4]? = some sampleTitle ∧
      ∃ card, cardCallback eightCardDom 4 "kia seltos" "daily" = .ok (some card)) :=
  ⟨⟨by decide,
      (cardCallback_cap_boundary.1 eightCardDom 7 "kia seltos" "daily" (by decide)).1⟩,
    ⟨by decide,
      cardCallback_cap_boundary.2 eightCardDom "kia seltos" "daily" sampleTitle
        { model := some "Kia Seltos 2023 or similar" } (by decide) rfl⟩⟩

/-- C3 as stated fails: a title element is present at index four, yet the
callback returns `null` because the element has no `div` ancestor. -/
theorem cardCallback_orphan_title :
    orphanFifthDom.carElements[4]? = some orphanTitle ∧
    cardCallback orphanFifthDom 4 "kia seltos" "daily" = .ok none ∧
    ¬ ∃ card, cardCallback orphanFifthDom 4 "kia seltos" "daily" = .ok (some card) := by
  refine ⟨by decide, by decide, ?_⟩
  rintro ⟨card, h⟩
  have h2 : cardCallback orphanFifthDom 4 "kia seltos" "daily" = .ok none := by decide
  rw [h2] at h
  cases h

/-- C4: the loop `while (retryCount < maxRetries)` with `maxRetries = 1` makes a
single attempt.  When the first `page.evaluate` of an index throws, no card is
extracted at that index whatever a second attempt would return; on the sample
page whose second attempt would succeed, the job ends with no record at all
while the same page without the failure yields one record. -/
theorem extractCard_single_attempt :
    (∀ (l : Listing) (index : Nat) (carName periodName e : String),
      l.evaluate 0 = .error e → extractCard l index carName periodName = none) ∧
    (∃ card, cardCallback sampleDom 0 sampleCall.carName sampleCall.periodName =
        .ok (some card) ∧
      evaluateCard flakyListing 1 0 sampleCall.carName sampleCall.periodName =
        .ok (some card) ∧
      extractCard (listingOf sampleDom) 0 sampleCall.carName sampleCall.periodName =
        some card) ∧
    extractCard flakyListing 0 sampleCall.carName sampleCall.periodName = none ∧
    (scrapeCarData (steadyJob flakyListing) sampleCall 6).map
        (fun res => (res.1.success, res.1.data.length)) = some (false, 0) ∧
    (scrapeCarData (steadyJob (listingOf sampleDom)) sampleCall 6).map
        (fun res => (res.1.success, res.1.data.length)) = some (true, 1) := by
  refine ⟨?_, ?_, by decide, by decide, by decide⟩
  · intro l index carName periodName e h
    simp [extractCard, maxRetries, retryLoop, evaluateCard, h]
  · refine ⟨((cardCallback sampleDom 0 sampleCall.carName sampleCall.periodName).toOption.join).get
      (by decide), by decide, by decide, by decide⟩

/-! ## Cancellation between vehicles -/

/-- C5 (as amended): when the flag is read as unset before the first vehicle and
as set before the second, `scrapeCars` returns the report
`success = false, message = "Scraping cancelled"` without data and without any
error entry; the records of the first vehicle, and only those, are in the
module-level accumulator, the only calls made are the jobs of the first vehicle
and the only error entries are theirs. -/
theorem scrapeCars_cancelled_between_vehicles (rt : JsRuntime) (env : RunEnv) (fuel : Nat)
    (first second : String) (rest : List String) (d w m : Bool) (months : Nat)
    (hfuel : 6 ≤ fuel) (hnames : ∀ n ∈ first :: second :: rest, n ≠ "")
    (h0 : env.cancelled 0 = false) (h1 : env.cancelled 1 = true)
    (hpage : env.newPage 0 = .ok ()) :
    ∃ run, scrapeCars rt env fuel [] ((first :: second :: rest).map CarName.str) d w m months =
        some run ∧
      run.report = { success := false, message := "Scraping cancelled", data := none } ∧
      run.scrapedData = successData (runJobs rt env d w m months [first]) ∧
      run.errors = failureLabels (runJobs rt env d w m months [first]) ∧
      run.calls = (runJobs rt env d w m months [first]).map JobResult.call := by
  obtain ⟨acc1, hl, hd, he, hc⟩ := vehicleLoop_block rt env d w m months fuel hfuel [first]
    ((second :: rest).map CarName.str) 0
    { scrapedData := [], errors := [], calls := [], loads := 0 }
    (fun j hj1 hj2 => by
      have : j = 0 := by simp at hj2; omega
      subst this; exact h0)
    (fun j hj1 hj2 => by
      have : j = 0 := by simp at hj2; omega
      subst this; exact hpage)
  have hl2 : vehicleLoop rt env d w m months fuel
      ((first :: second :: rest).map CarName.str) 0
      { scrapedData := [], errors := [], calls := [], loads := 0 } =
      some (acc1, some { success := false, message := "Scraping cancelled", data := none }) := by
    have hsplit : (first :: second :: rest).map CarName.str =
        [first].map CarName.str ++ (second :: rest).map CarName.str := by simp
    rw [hsplit, hl]
    simp [vehicleLoop, h1]
  simp only [List.nil_append] at hd he hc
  refine ⟨{ report := { success := false, message := "Scraping cancelled", data := none },
            scrapedData := acc1.scrapedData, errors := acc1.errors, calls := acc1.calls,
            loads := acc1.loads }, ?_, rfl, ?_, ?_, ?_⟩
  · have hv := validationErrors_of_nonempty (first :: second :: rest) hnames
    simp only [scrapeCars, hv, hl2]
    simp
  · simpa [runJobs] using hd
  · simpa [runJobs] using he
  · simpa [runJobs] using hc

theorem scrapeCars_cancelled_between_vehicles_witness :
    ∃ run, scrapeCars istRuntime cancelAfterFirst 6 []
        (["kia seltos", "mg 5", "jac j7"].map CarName.str) true false false 1 = some run ∧
      run.report = { success := false, message := "Scraping cancelled", data := none } ∧
      run.scrapedData = successData (runJobs istRuntime cancelAfterFirst true false false 1
        ["kia seltos"]) ∧
      run.errors = failureLabels (runJobs istRuntime cancelAfterFirst true false false 1
        ["kia seltos"]) ∧
      run.calls = (runJobs istRuntime cancelAfterFirst true false false 1
        ["kia seltos"]).map JobResult.call :=
  scrapeCars_cancelled_between_vehicles istRuntime cancelAfterFirst 6 "kia seltos" "mg 5"
    ["jac j7"] true false false 1 (by decide) (by decide) rfl rfl rfl

/-- C5 as stated fails: with the flag set after the first vehicle, whose job
extracted one record, the report returned holds no data at all; the record is
left in the module-level accumulator only. -/
theorem scrapeCars_cancelled_report_has_no_data :
    (scrapeCars istRuntime cancelAfterFirst 6 []
        (["kia seltos", "mg 5", "jac j7"].map CarName.str) true false false 1).map
      (fun run => (run.report, run.scrapedData.length, run.errors)) =
    some ({ success := false, message := "Scraping cancelled", data := none }, 1, []) := by
  decide

/-! ## Terminal outcomes of the period scraper -/

/-- The outcome of a run of `scrapeCarData` during which the flag is never set,
by the way the loop is left; `records` are the records extracted, one per index
from 0 on.  Either the navigation at the next index succeeds and the loop is
left by `break`, or that navigation throws and the catch clause of line 346
builds the outcome. -/
theorem scrapeCarData_outcome_cases (env : JobEnv) (call : JobCall) (fuel : Nat)
    (hfuel : 6 ≤ fuel) (hcancel : ∀ i, env.cancelled i = false) :
    ∃ outcome loads records, scrapeCarData env call fuel = some (outcome, loads) ∧
      (∀ i r, records[i]? = some r → ExtractedAt env call.carName call.periodName i r) ∧
      (((env.listing records.length).goto = .ok () ∧
          (selectorsVisible (env.listing records.length) = false ∨
            extractCard (env.listing records.length) records.length call.carName
              call.periodName = none) ∧
          outcome =
            (if records = [] then
              { success := false,
                message := some ("No data found for " ++ call.carName ++ " (" ++
                  call.periodName ++ ")"),
                data := [] }
             else { success := true, message := none, data := records })) ∨
        (∃ e, (env.listing records.length).goto = .error e ∧
          outcome = { success := false, message := some (catchMessage e), data := [] })) := by
  obtain ⟨exit, hrun, hidx, -, hinv, hstop⟩ := scrapeCarData_exit env call fuel hfuel
  refine ⟨_, _, exit.results, hrun, hinv, ?_⟩
  rw [← hidx]
  rcases hstop with ⟨hc, -, -⟩ | ⟨-, ⟨e, hg, ht⟩, -⟩ | ⟨-, hg, hbreak, ht, -⟩
  · rw [hcancel] at hc
    cases hc
  · right
    exact ⟨e, hg, by simp [outcomeOf, ht]⟩
  · left
    refine ⟨hg, hbreak, ?_⟩
    by_cases hnil : exit.results = []
    · simp [outcomeOf, ht, hnil]
    · have hlen : ¬ exit.results.length = 0 := fun h => hnil (List.length_eq_zero.mp h)
      simp [outcomeOf, ht, hnil, hlen]

/-- C6: in a run of `scrapeCarData` during which the flag is never set and
no listing navigation throws, the outcome is what the claim says: `success =
true` with the extracted records in index order when there is at least one, and
`success = false` with a message and no record only when none was extracted.
The code breaks the claim when the navigation of a reload throws.  On the page
`reloadFails` the card of index 0 is extracted, the loop holds one record when
the navigation for index 1 throws, and the outcome is `success = false` with no
record.  The other failures of the same reload keep the record: when the
selectors do not show, or when `page.evaluate` throws, the outcome is
`success = true` with the record of index 0. -/
theorem scrapeCarData_reload_failure_discards :
    (∀ (env : JobEnv) (call : JobCall) (fuel : Nat), 6 ≤ fuel →
      (∀ i, env.cancelled i = false) → (∀ i, (env.listing i).goto = .ok ()) →
      ∃ outcome loads records, scrapeCarData env call fuel = some (outcome, loads) ∧
        (∀ i r, records[i]? = some r → ExtractedAt env call.carName call.periodName i r) ∧
        (selectorsVisible (env.listing records.length) = false ∨
          extractCard (env.listing records.length) records.length call.carName
            call.periodName = none) ∧
        outcome =
          (if records = [] then
            { success := false,
              message := some ("No data found for " ++ call.carName ++ " (" ++
                call.periodName ++ ")"),
              data := [] }
           else { success := true, message := none, data := records })) ∧
    (∀ i, reloadFails.cancelled i = false) ∧
    (extractCard (reloadFails.listing 0) 0 sampleCall.carName
      sampleCall.periodName).isSome = true ∧
    (scrapeLoop reloadFails sampleCall.carName sampleCall.periodName 6 0 0 []).map
        (fun exit => (exit.index, exit.results.length, exit.thrown)) =
      some (1, 1, some "net::ERR_CONNECTION_RESET") ∧
    (scrapeCarData reloadFails sampleCall 6).map Prod.fst =
      some { success := false, message := some "net::ERR_CONNECTION_RESET", data := [] } ∧
    (scrapeCarData reloadShowsNothing sampleCall 6).map
        (fun res => (res.1.success, res.1.data.length)) = some (true, 1) ∧
    (scrapeCarData reloadEvaluateThrows sampleCall 6).map
        (fun res => (res.1.success, res.1.data.length)) = some (true, 1) ∧
    (scrapeCarData reloadShowsNothing sampleCall 6).map (fun res => res.1.data) =
      (scrapeCarData (steadyJob (listingOf sampleDom)) sampleCall 6).map
        (fun res => res.1.data) := by
  refine ⟨?_, fun _ => rfl, by decide, by decide, by decide, by decide, by decide, by decide⟩
  intro env call fuel hfuel hcancel hgoto
  obtain ⟨outcome, loads, records, hrun, hinv, hcase⟩ :=
    scrapeCarData_outcome_cases env call fuel hfuel hcancel
  refine ⟨outcome, loads, records, hrun, hinv, ?_⟩
  rcases hcase with ⟨-, hbreak, hout⟩ | ⟨e, hg, -⟩
  · exact ⟨hbreak, hout⟩
  · rw [hgoto] at hg
    cases hg

/-! ## A listing without cards -/

theorem jobResult_mem_jobResults (rt : JsRuntime) (env : RunEnv) (kinds : List Kind)
    (months : Nat) (kind : Kind) (hk : kind ∈ kinds) (names : List String) :
    ∀ (start i : Nat) (name : String), names[i]? = some name →
      jobResult rt env months (start + i) name kind ∈
        jobResults rt env kinds months names start := by
  induction names with
  | nil => intro _ i _ h; simp at h
  | cons n rest ih =>
    intro start i name h
    cases i with
    | zero =>
      simp only [List.getElem?_cons_zero, Option.some.injEq] at h
      subst h
      simp only [jobResults, List.mem_append, List.mem_map, Nat.add_zero]
      exact Or.inl ⟨kind, hk, rfl⟩
    | succ j =>
      simp only [List.getElem?_cons_succ] at h
      have := ih (start + 1) j name h
      simp only [jobResults, List.mem_append]
      right
      rwa [show start + (j + 1) = start + 1 + j by omega]

theorem failureLabel_mem (jobs : List JobResult) (r : JobResult) (hr : r ∈ jobs)
    (hs : r.outcome.success = false) : failureLabel r ∈ failureLabels jobs := by
  induction jobs with
  | nil => simp at hr
  | cons x rest ih =>
    simp only [List.mem_cons] at hr
    rcases hr with rfl | hr
    · simp [failureLabels, hs]
    · simp only [failureLabels, List.mem_append]
      exact Or.inr (ih hr)

theorem scrapeLoop_no_selectors (env : JobEnv) (carName periodName : String) (fuel : Nat)
    (hflag : env.cancelled 0 = false) (hload : (env.listing 0).goto = .ok ())
    (hsel : selectorsVisible (env.listing 0) = false) :
    scrapeLoop env carName periodName (fuel + 1) 0 0 [] =
      some { loads := 1, index := 0, results := [], thrown := none } := by
  simp [scrapeLoop, hflag, hload, hsel]

/-- C7 (as amended): a job whose first listing load succeeds while the primary
selectors do not become visible ends after that one load with zero records, and
`scrapeCarData` returns `success = false` with the message
`No data found for <vehicle> (<period>)`; the orchestrator treats it like any
failed job and appends the labelled entry to its error list. -/
theorem scrapeCars_no_cards_is_reported (rt : JsRuntime) (env : RunEnv) (fuel : Nat)
    (names : List String) (d w m : Bool) (months i : Nat) (name : String) (kind : Kind)
    (hfuel : 6 ≤ fuel) (hnames : ∀ n ∈ names, n ≠ "")
    (hcancel : ∀ j, env.cancelled j = false) (hpage : ∀ j, env.newPage j = .ok ())
    (hi : names[i]? = some name) (hk : kind ∈ enabledKinds d w m months)
    (hflag : (env.job i kind).cancelled 0 = false)
    (hload : ((env.job i kind).listing 0).goto = .ok ())
    (hsel : selectorsVisible ((env.job i kind).listing 0) = false) :
    scrapeCarData (env.job i kind)
        (jobCall rt env.pickupDate env.baseTime name
          (formatCarNameForUrl rt (rt.toLowerCase name)) months kind) fuel =
      some ({ success := false,
              message := some ("No data found for " ++ name ++ " (" ++
                (jobCall rt env.pickupDate env.baseTime name
                  (formatCarNameForUrl rt (rt.toLowerCase name)) months kind).periodName ++
                ")"),
              data := [] }, 1) ∧
    ∃ run, scrapeCars rt env fuel [] (names.map CarName.str) d w m months = some run ∧
      (kind.label ++ " scrape failed for " ++ name ++ ": " ++
        ("No data found for " ++ name ++ " (" ++
          (jobCall rt env.pickupDate env.baseTime name
            (formatCarNameForUrl rt (rt.toLowerCase name)) months kind).periodName ++ ")"))
        ∈ run.errors := by
  have hcn := jobCall_carName rt env.pickupDate env.baseTime name
    (formatCarNameForUrl rt (rt.toLowerCase name)) months kind
  have hloop := fun f => scrapeLoop_no_selectors (env.job i kind) name
    (jobCall rt env.pickupDate env.baseTime name
      (formatCarNameForUrl rt (rt.toLowerCase name)) months kind).periodName f hflag hload hsel
  have hdata : ∀ f, scrapeCarData (env.job i kind)
      (jobCall rt env.pickupDate env.baseTime name
        (formatCarNameForUrl rt (rt.toLowerCase name)) months kind) (f + 1) =
      some ({ success := false,
              message := some ("No data found for " ++ name ++ " (" ++
                (jobCall rt env.pickupDate env.baseTime name
                  (formatCarNameForUrl rt (rt.toLowerCase name)) months kind).periodName ++
                ")"),
              data := [] }, 1) := by
    intro f
    simp [scrapeCarData, hcn, hloop f, outcomeOf]
  have hfuel2 : fuel = (fuel - 1) + 1 := by omega
  refine ⟨by rw [hfuel2]; exact hdata _, ?_⟩
  obtain ⟨run, hrun, -, -, herr, -⟩ := scrapeCars_run rt env fuel [] names d w m months hfuel
    hnames (fun j _ => hcancel j) (fun j _ => hpage j)
  refine ⟨run, hrun, ?_⟩
  rw [herr]
  have hmem := jobResult_mem_jobResults rt env (enabledKinds d w m months) months kind hk
    names 0 i name hi
  rw [Nat.zero_add] at hmem
  have hout : (jobResult rt env months i name kind).outcome =
      { success := false,
        message := some ("No data found for " ++ name ++ " (" ++
          (jobCall rt env.pickupDate env.baseTime name
            (formatCarNameForUrl rt (rt.toLowerCase name)) months kind).periodName ++ ")"),
        data := [] } := by
    have h6 := hdata 5
    simp [jobResult, jobOutcome, h6]
  have hlab := failureLabel_mem _ _ hmem (by rw [hout])
  have heq : failureLabel (jobResult rt env months i name kind) =
      kind.label ++ " scrape failed for " ++ name ++ ": " ++
        ("No data found for " ++ name ++ " (" ++
          (jobCall rt env.pickupDate env.baseTime name
            (formatCarNameForUrl rt (rt.toLowerCase name)) months kind).periodName ++ ")") := by
    unfold failureLabel
    rw [hout]
    rfl
  rw [heq] at hlab
  exact hlab

theorem scrapeCars_no_cards_is_reported_witness :
    ∃ run, scrapeCars istRuntime noInventoryRun 6 [] (["kia seltos"].map CarName.str)
        true false false 1 = some run ∧
      (Kind.daily.label ++ " scrape failed for " ++ "kia seltos" ++ ": " ++
        ("No data found for " ++ "kia seltos" ++ " (" ++
          (jobCall istRuntime noInventoryRun.pickupDate noInventoryRun.baseTime "kia seltos"
            (formatCarNameForUrl istRuntime (istRuntime.toLowerCase "kia seltos")) 1
            Kind.daily).periodName ++ ")"))
        ∈ run.errors :=
  (scrapeCars_no_cards_is_reported istRuntime noInventoryRun 6 ["kia seltos"] true false false
    1 0 "kia seltos" Kind.daily (by decide) (by decide) (fun _ => rfl) (fun _ => rfl) rfl
    (by decide) rfl rfl rfl).2

/-- C7 as stated fails: the listing loads, the selectors never show, and the
orchestrator does append an entry to its error list for that job; with no other
job the run itself is reported as failed with that entry as its message. -/
theorem scrapeCars_no_cards_error_entry :
    (scrapeCars istRuntime noInventoryRun 6 [] (["kia seltos"].map CarName.str)
        true false false 1).map (fun run => (run.errors, run.report.success, run.loads)) =
    some (["Daily scrape failed for kia seltos: No data found for kia seltos " ++
            "(1/1/2024, 8:00:00 AM - 1/2/2024, 8:00:00 AM)"], false, 1) := by
  decide

/-! ## The monthly flag and the listing URL -/

theorem durationHoursOf_ge_iff (sinceDateTime untilDateTime : Int) :
    durationHoursOf sinceDateTime untilDateTime ≥ 720 ↔
      2592000000 ≤ untilDateTime - sinceDateTime := by
  unfold durationHoursOf
  rw [ge_iff_le, le_div_iff₀ (by norm_num)]
  constructor
  · intro h
    have h2 : ((2592000000 : Int) : ℚ) ≤ ((untilDateTime - sinceDateTime : Int) : ℚ) := by
      norm_num at h ⊢
      linarith
    exact_mod_cast h2
  · intro h
    have h2 : ((2592000000 : Int) : ℚ) ≤ ((untilDateTime - sinceDateTime : Int) : ℚ) := by
      exact_mod_cast h
    norm_num at h2 ⊢
    linarith

theorem jobCall_durationHours (rt : JsRuntime) (pickupDate : Ymd) (baseTime : Hms)
    (carName formattedCarName : String) (months : Nat) (kind : Kind) :
    (jobCall rt pickupDate baseTime carName formattedCarName months kind).durationHours =
      durationHoursOf (rt.getTime pickupDate baseTime)
        (jobUntil rt pickupDate baseTime months kind) := by
  cases kind <;> rfl

/-- C8 (as amended): for every job the orchestrator builds, `durationHours` is
`(until - since) / 3600000`.  For the daily and the weekly job the flag
`isMonthly` passed to `scrapeCarData` is true exactly when
`durationHours >= 720`, the URL carries `&is_monthly=true` exactly when the flag
is true, and a window of 720 hours gives `true` while one of 719 hours gives
`false`.  For the monthly job the flag is the constant `true` and the URL always
carries `&is_monthly=true`, whatever the duration. -/
theorem jobCall_isMonthly_derivation (rt : JsRuntime) (pickupDate : Ymd) (baseTime : Hms)
    (carName formattedCarName : String) (months : Nat) (kind : Kind) :
    (jobCall rt pickupDate baseTime carName formattedCarName months kind).durationHours =
      ((jobUntil rt pickupDate baseTime months kind - rt.getTime pickupDate baseTime : Int) : ℚ)
        / 3600000 ∧
    (kind ≠ Kind.monthly →
      ((jobCall rt pickupDate baseTime carName formattedCarName months kind).isMonthly = true ↔
        (jobCall rt pickupDate baseTime carName formattedCarName months kind).durationHours
          ≥ 720) ∧
      (jobCall rt pickupDate baseTime carName formattedCarName months kind).mainUrl =
        "https://drive.yango.com/search/all/" ++ formattedCarName ++
          "?since=" ++ toString (rt.getTime pickupDate baseTime) ++
          "&until=" ++ toString (jobUntil rt pickupDate baseTime months kind) ++
          "&duration_months=" ++
          toString (if (jobCall rt pickupDate baseTime carName formattedCarName months
              kind).isMonthly = true then
            ⌈(jobCall rt pickupDate baseTime carName formattedCarName months
              kind).durationHours / 720⌉ else 0) ++
          (if (jobCall rt pickupDate baseTime carName formattedCarName months
              kind).isMonthly = true then "&is_monthly=true" else "") ++
          "&sort_by=price&sort_order=asc" ∧
      (jobUntil rt pickupDate baseTime months kind - rt.getTime pickupDate baseTime =
          720 * 3600000 →
        (jobCall rt pickupDate baseTime carName formattedCarName months kind).isMonthly =
          true) ∧
      (jobUntil rt pickupDate baseTime months kind - rt.getTime pickupDate baseTime =
          719 * 3600000 →
        (jobCall rt pickupDate baseTime carName formattedCarName months kind).isMonthly =
          false)) ∧
    (kind = Kind.monthly →
      (jobCall rt pickupDate baseTime carName formattedCarName months kind).isMonthly = true ∧
      (jobCall rt pickupDate baseTime carName formattedCarName months kind).mainUrl =
        "https://drive.yango.com/search/all/" ++ formattedCarName ++
          "?since=" ++ toString (rt.getTime pickupDate baseTime) ++
          "&until=" ++ toString (jobUntil rt pickupDate baseTime months kind) ++
          "&duration_months=" ++ toString months ++
          "&is_monthly=true&sort_by=price&sort_order=asc") := by
  refine ⟨?_, ?_, ?_⟩
  · rw [jobCall_durationHours]
    unfold durationHoursOf
    norm_num
  · intro hk
    have hflag : (jobCall rt pickupDate baseTime carName formattedCarName months kind).isMonthly
        = decide ((jobCall rt pickupDate baseTime carName formattedCarName months
          kind).durationHours ≥ 720) := by
      cases kind
      · rfl
      · rfl
      · exact absurd rfl hk
    have hdur := jobCall_durationHours rt pickupDate baseTime carName formattedCarName months kind
    refine ⟨?_, ?_, ?_, ?_⟩
    · rw [hflag]
      simp
    · cases kind
      · rfl
      · rfl
      · exact absurd rfl hk
    · intro h
      rw [hflag, hdur, decide_eq_true_eq, durationHoursOf_ge_iff, h]
      norm_num
    · intro h
      rw [hflag, hdur, decide_eq_false_iff_not, durationHoursOf_ge_iff, h]
      norm_num
  · intro hk
    subst hk
    exact ⟨rfl, rfl⟩

theorem jobCall_isMonthly_derivation_witness :
    (Kind.daily ≠ Kind.monthly ∧
      ((jobCall istRuntime { year := 2024, month := 1, day := 1 }
        { hour := 8, minute := 0, second := 0 } "kia seltos" "kia/seltos" 1
        Kind.daily).isMonthly = true ↔
      (jobCall istRuntime { year := 2024, month := 1, day := 1 }
        { hour := 8, minute := 0, second := 0 } "kia seltos" "kia/seltos" 1
        Kind.daily).durationHours ≥ 720)) ∧
    (jobCall istRuntime { year := 2024, month := 1, day := 1 }
        { hour := 8, minute := 0, second := 0 } "kia seltos" "kia/seltos" 1
        Kind.monthly).isMonthly = true :=
  ⟨⟨by decide,
      ((jobCall_isMonthly_derivation istRuntime { year := 2024, month := 1, day := 1 }
        { hour := 8, minute := 0, second := 0 } "kia seltos" "kia/seltos" 1
        Kind.daily).2.1 (by decide)).1⟩,
    ((jobCall_isMonthly_derivation istRuntime { year := 2024, month := 1, day := 1 }
        { hour := 8, minute := 0, second := 0 } "kia seltos" "kia/seltos" 1
        Kind.monthly).2.2 rfl).1⟩

/-- C8 as stated fails for the monthly job: one month from 1 February 2023,
10:00:00, ends on 1 March 2023, 10:00:00, which is 672 hours later, and the flag
passed is `true` although `durationHours < 720`. -/
theorem monthlyCall_february_flag :
    (jobCall istRuntime { year := 2023, month := 2, day := 1 }
      { hour := 10, minute := 0, second := 0 } "kia seltos" "kia/seltos" 1
      Kind.monthly).isMonthly = true ∧
    (jobCall istRuntime { year := 2023, month := 2, day := 1 }
      { hour := 10, minute := 0, second := 0 } "kia seltos" "kia/seltos" 1
      Kind.monthly).durationHours = 672 ∧
    ¬ ((jobCall istRuntime { year := 2023, month := 2, day := 1 }
      { hour := 10, minute := 0, second := 0 } "kia seltos" "kia/seltos" 1
      Kind.monthly).isMonthly = true ↔
      (jobCall istRuntime { year := 2023, month := 2, day := 1 }
        { hour := 10, minute := 0, second := 0 } "kia seltos" "kia/seltos" 1
        Kind.monthly).durationHours ≥ 720) := by
  have hs : istRuntime.getTime { year := 2023, month := 2, day := 1 }
      { hour := 10, minute := 0, second := 0 } = 1675225800000 := by decide
  have hu : jobUntil istRuntime { year := 2023, month := 2, day := 1 }
      { hour := 10, minute := 0, second := 0 } 1 Kind.monthly = 1677645000000 := by decide
  have hd : (jobCall istRuntime { year := 2023, month := 2, day := 1 }
      { hour := 10, minute := 0, second := 0 } "kia seltos" "kia/seltos" 1
      Kind.monthly).durationHours = 672 := by
    rw [jobCall_durationHours, hs, hu]
    unfold durationHoursOf
    norm_num
  refine ⟨rfl, hd, ?_⟩
  rw [hd]
  intro h
  have := h.mp rfl
  norm_num at this

/-! ## The slug and the listing URL of a daily or weekly job -/

theorem char_toLower_idem (c : Char) : c.toLower.toLower = c.toLower := by
  by_cases h : c.toNat ≥ 65 ∧ c.toNat ≤ 90
  · have hc : c.toLower = Char.ofNat (c.toNat + 32) := by simp [Char.toLower, h]
    rw [hc]
    obtain ⟨h1, h2⟩ := h
    generalize c.toNat = n at h1 h2
    interval_cases n <;> decide
  · have hc : c.toLower = c := by simp [Char.toLower, h]
    rw [hc, hc]

theorem asciiLower_idem (s : String) : asciiLower (asciiLower s) = asciiLower s := by
  have hcomp : Char.toLower ∘ Char.toLower = Char.toLower := by
    funext c
    exact char_toLower_idem c
  simp [asciiLower, hcomp]

theorem replaceSpaceRunsAux_word (sep : List Char) (w : List Char)
    (hw : ∀ c ∈ w, isJsSpace c = false) (rest : List Char) :
    replaceSpaceRunsAux sep false (w ++ rest) = w ++ replaceSpaceRunsAux sep false rest := by
  induction w with
  | nil => rfl
  | cons c cs ih =>
    have hc : isJsSpace c = false := hw c (by simp)
    have ih2 := ih (fun x hx => hw x (by simp [hx]))
    simp [replaceSpaceRunsAux, hc, ih2]

theorem replaceSpaceRunsAux_in_run (sep : List Char) (ws : List Char)
    (hws : ∀ c ∈ ws, isJsSpace c = true) (rest : List Char)
    (hrest : ∀ c, rest.head? = some c → isJsSpace c = false) :
    replaceSpaceRunsAux sep true (ws ++ rest) = replaceSpaceRunsAux sep false rest := by
  induction ws with
  | nil =>
    cases rest with
    | nil => rfl
    | cons c cs =>
      have hc : isJsSpace c = false := hrest c rfl
      simp [replaceSpaceRunsAux, hc]
  | cons c cs ih =>
    have hc : isJsSpace c = true := hws c (by simp)
    have ih2 := ih (fun x hx => hws x (by simp [hx]))
    simp [replaceSpaceRunsAux, hc, ih2]

/-- A word, a non-empty run of white space and a rest that does not start with
white space: the run is replaced by exactly one separator. -/
theorem replaceSpaceRuns_word_run (sep : String) (w ws rest : List Char)
    (hw : ∀ c ∈ w, isJsSpace c = false) (hws : ∀ c ∈ ws, isJsSpace c = true)
    (hne : ws ≠ []) (hrest : ∀ c, rest.head? = some c → isJsSpace c = false) :
    replaceSpaceRuns sep ⟨w ++ ws ++ rest⟩ =
      ⟨w⟩ ++ sep ++ replaceSpaceRuns sep ⟨rest⟩ := by
  cases ws with
  | nil => exact absurd rfl hne
  | cons c cs =>
    have hc : isJsSpace c = true := hws c (by simp)
    have hrun := replaceSpaceRunsAux_in_run sep.data cs (fun x hx => hws x (by simp [hx]))
      rest hrest
    apply String.ext
    simp only [replaceSpaceRuns, List.append_assoc, String.data_append]
    rw [replaceSpaceRunsAux_word sep.data w hw]
    simp [replaceSpaceRunsAux, hc, hrun]

theorem windowUrl_of_lt (formattedCarName : String) (sinceDateTime untilDateTime : Int)
    (h : untilDateTime - sinceDateTime < 2592000000) :
    windowUrl formattedCarName sinceDateTime untilDateTime =
      "https://drive.yango.com/search/all/" ++ formattedCarName ++
        "?since=" ++ toString sinceDateTime ++ "&until=" ++ toString untilDateTime ++
        "&duration_months=" ++ "0" ++ "" ++ "&sort_by=price&sort_order=asc" := by
  have hnot : ¬ durationHoursOf sinceDateTime untilDateTime ≥ 720 := by
    rw [durationHoursOf_ge_iff]
    omega
  simp only [windowUrl, hnot, decide_False, Bool.false_eq_true, if_false]
  rfl

/-- C9: the listing URL of a daily or weekly job.  With `slug` the lower-cased
name in which every run of white space is replaced by one `/`, the URL is the
base, the slug, `since`, `until`, then `duration_months=0` without any
`is_monthly` when the window is shorter than 720 hours, and
`duration_months=⌈hours / 720⌉` followed by `&is_monthly=true` otherwise, then
the sort order.  Lower-casing twice, as the source does, is lower-casing once;
and in the slug a word followed by a run of white space becomes the word
followed by exactly one `/`. -/
theorem window_listing_url (rt : JsRuntime)
    (hlower : ∀ s, rt.toLowerCase (rt.toLowerCase s) = rt.toLowerCase s)
    (pickupDate : Ymd) (baseTime : Hms) (carName : String) (months : Nat) (kind : Kind)
    (hk : kind ≠ Kind.monthly) :
    (jobCall rt pickupDate baseTime carName (formatCarNameForUrl rt (rt.toLowerCase carName))
        months kind).mainUrl =
      "https://drive.yango.com/search/all/" ++ replaceSpaceRuns "/" (rt.toLowerCase carName) ++
        "?since=" ++ toString (rt.getTime pickupDate baseTime) ++
        "&until=" ++ toString (jobUntil rt pickupDate baseTime months kind) ++
        "&duration_months=" ++
        (if ((jobUntil rt pickupDate baseTime months kind - rt.getTime pickupDate baseTime :
              Int) : ℚ) / 3600000 < 720 then "0"
         else toString ⌈((jobUntil rt pickupDate baseTime months kind -
              rt.getTime pickupDate baseTime : Int) : ℚ) / 3600000 / 720⌉) ++
        (if ((jobUntil rt pickupDate baseTime months kind - rt.getTime pickupDate baseTime :
              Int) : ℚ) / 3600000 < 720 then ""
         else "&is_monthly=true") ++
        "&sort_by=price&sort_order=asc" ∧
    (∀ w ws rest : List Char, (∀ c ∈ w, isJsSpace c = false) →
      (∀ c ∈ ws, isJsSpace c = true) → ws ≠ [] →
      (∀ c, rest.head? = some c → isJsSpace c = false) →
      replaceSpaceRuns "/" ⟨w ++ ws ++ rest⟩ = ⟨w⟩ ++ "/" ++ replaceSpaceRuns "/" ⟨rest⟩) := by
  refine ⟨?_, fun w ws rest hw hws hne hrest =>
    replaceSpaceRuns_word_run "/" w ws rest hw hws hne hrest⟩
  have hurl : (jobCall rt pickupDate baseTime carName
      (formatCarNameForUrl rt (rt.toLowerCase carName)) months kind).mainUrl =
      windowUrl (replaceSpaceRuns "/" (rt.toLowerCase carName)) (rt.getTime pickupDate baseTime)
        (jobUntil rt pickupDate baseTime months kind) := by
    cases kind
    · simp [jobCall, windowCall, jobUntil, formatCarNameForUrl, hlower]
    · simp [jobCall, windowCall, jobUntil, formatCarNameForUrl, hlower]
    · exact absurd rfl hk
  rw [hurl]
  have hdur : durationHoursOf (rt.getTime pickupDate baseTime)
      (jobUntil rt pickupDate baseTime months kind) =
      ((jobUntil rt pickupDate baseTime months kind - rt.getTime pickupDate baseTime : Int) : ℚ)
        / 3600000 := by
    unfold durationHoursOf
    norm_num
  unfold windowUrl
  simp only [hdur]
  by_cases hlt : ((jobUntil rt pickupDate baseTime months kind - rt.getTime pickupDate baseTime :
      Int) : ℚ) / 3600000 < 720
  · have hge : ¬ ((jobUntil rt pickupDate baseTime months kind -
        rt.getTime pickupDate baseTime : Int) : ℚ) / 3600000 ≥ 720 := not_le.mpr hlt
    simp only [hlt, hge, decide_False, Bool.false_eq_true, if_false, if_true]
    rfl
  · have hge : ((jobUntil rt pickupDate baseTime months kind -
        rt.getTime pickupDate baseTime : Int) : ℚ) / 3600000 ≥ 720 := not_lt.mp hlt
    simp only [hlt, hge, decide_True, if_false, if_true]

theorem window_listing_url_witness :
    (∀ s, istRuntime.toLowerCase (istRuntime.toLowerCase s) = istRuntime.toLowerCase s) ∧
    Kind.daily ≠ Kind.monthly ∧
    formatCarNameForUrl istRuntime (istRuntime.toLowerCase "kia seltos") = "kia/seltos" ∧
    jobUntil istRuntime { year := 2024, month := 1, day := 1 }
        { hour := 8, minute := 0, second := 0 } 1 Kind.daily -
      istRuntime.getTime { year := 2024, month := 1, day := 1 }
        { hour := 8, minute := 0, second := 0 } = 24 * 3600000 ∧
    (jobCall istRuntime { year := 2024, month := 1, day := 1 }
        { hour := 8, minute := 0, second := 0 } "kia seltos"
        (formatCarNameForUrl istRuntime (istRuntime.toLowerCase "kia seltos")) 1
        Kind.daily).mainUrl =
      "https://drive.yango.com/search/all/kia/seltos?since=1704076200000" ++
        "&until=1704162600000&duration_months=0&sort_by=price&sort_order=asc" ∧
    jsIncludes ("https://drive.yango.com/search/all/kia/seltos?since=1704076200000" ++
        "&until=1704162600000&duration_months=0&sort_by=price&sort_order=asc")
      "duration_months=0" = true ∧
    jsIncludes ("https://drive.yango.com/search/all/kia/seltos?since=1704076200000" ++
        "&until=1704162600000&duration_months=0&sort_by=price&sort_order=asc")
      "is_monthly" = false := by
  have hs : istRuntime.getTime { year := 2024, month := 1, day := 1 }
      { hour := 8, minute := 0, second := 0 } = 1704076200000 := by decide
  have hu : jobUntil istRuntime { year := 2024, month := 1, day := 1 }
      { hour := 8, minute := 0, second := 0 } 1 Kind.daily = 1704162600000 := by decide
  have hslug : replaceSpaceRuns "/" (istRuntime.toLowerCase "kia seltos") = "kia/seltos" := by
    decide
  have hurl := (window_listing_url istRuntime asciiLower_idem
    { year := 2024, month := 1, day := 1 } { hour := 8, minute := 0, second := 0 }
    "kia seltos" 1 Kind.daily (by decide)).1
  rw [hs, hu, hslug] at hurl
  have hlt : (((1704162600000 - 1704076200000 : Int) : ℚ) / 3600000 < 720) := by norm_num
  rw [if_pos hlt, if_pos hlt] at hurl
  refine ⟨asciiLower_idem, by decide, by decide, by rw [hs, hu]; decide, ?_, by decide,
    by decide⟩
  rw [hurl]
  decide

/-! ## Validation -/

theorem string_length_lt_one (s : String) : s.length < 1 ↔ s = "" := by
  constructor
  · intro h
    have h0 : s.data.length = 0 := by
      have : s.length = s.data.length := rfl
      omega
    have hd : s.data = [] := List.length_eq_zero.mp h0
    cases s
    simp_all
  · intro h
    subst h
    decide

theorem validationErrors_eq (names : List CarName) :
    validationErrors names = (names.filter CarName.isInvalid).map validationMessage := by
  induction names with
  | nil => rfl
  | cons n rest ih =>
    cases n with
    | str s =>
      by_cases hs : s = ""
      · simp [validationErrors, validateCarName, CarName.isInvalid, validationMessage, hs, ih]
      · have hlen : ¬ s.length < 1 := fun h => hs ((string_length_lt_one s).mp h)
        simp [validationErrors, validateCarName, CarName.isInvalid, hs, hlen, ih]
    | undefined =>
      simp [validationErrors, validateCarName, CarName.isInvalid, validationMessage, ih]
    | null =>
      simp [validationErrors, validateCarName, CarName.isInvalid, validationMessage, ih]

/-- C10: when the list holds at least one empty or missing name, `scrapeCars`
returns `success = false` whatever the flags, the page behaviour and the fuel:
no `scrapeCarData` call is made and no listing is loaded, the accumulator is
unchanged, and the message is the validation messages of the invalid names, in
list order, joined by `"; "`.  When every name is a string of length at least
one, validation produces no error. -/
theorem scrapeCars_validation (rt : JsRuntime) (env : RunEnv) (fuel : Nat)
    (start : List Record) (names : List CarName) (d w m : Bool) (months : Nat) :
    ((∃ n ∈ names, n.isInvalid = true) →
      scrapeCars rt env fuel start names d w m months =
        some { report :=
                 { success := false,
                   message := "; ".intercalate
                     ((names.filter CarName.isInvalid).map validationMessage),
                   data := none },
               scrapedData := start,
               errors := (names.filter CarName.isInvalid).map validationMessage,
               calls := [],
               loads := 0 }) ∧
    ((∀ n ∈ names, ∃ s, n = CarName.str s ∧ 1 ≤ s.length) → validationErrors names = []) := by
  constructor
  · rintro ⟨n, hn, hinv⟩
    have hmem : validationMessage n ∈ (names.filter CarName.isInvalid).map validationMessage :=
      List.mem_map.mpr ⟨n, List.mem_filter.mpr ⟨hn, hinv⟩, rfl⟩
    have hpos : 0 < ((names.filter CarName.isInvalid).map validationMessage).length :=
      List.length_pos_of_mem hmem
    simp only [scrapeCars, validationErrors_eq]
    rw [if_pos (by simpa using hpos)]
  · intro hall
    rw [validationErrors_eq]
    have hfilter : names.filter CarName.isInvalid = [] := by
      apply List.filter_eq_nil_iff.mpr
      intro n hn
      obtain ⟨s, rfl, hlen⟩ := hall n hn
      have hs : s ≠ "" := fun h => by
        have := (string_length_lt_one s).mpr h
        omega
      simp [CarName.isInvalid, hs]
    rw [hfilter]
    rfl

theorem scrapeCars_validation_witness :
    (∃ n ∈ [CarName.str "kia seltos", CarName.str "", CarName.undefined],
      n.isInvalid = true) ∧
    scrapeCars istRuntime secondVehicleFails 6 []
        [CarName.str "kia seltos", CarName.str "", CarName.undefined] true true true 1 =
      some { report :=
               { success := false,
                 message := "Car name \"\" must be at least 1 characters long; " ++
                   "Car name \"undefined\" must be at least 1 characters long",
                 data := none },
             scrapedData := [],
             errors := ["Car name \"\" must be at least 1 characters long",
               "Car name \"undefined\" must be at least 1 characters long"],
             calls := [],
             loads := 0 } ∧
    (∀ n ∈ [CarName.str "kia seltos", CarName.str "mg 5"], ∃ s, n = CarName.str s ∧
      1 ≤ s.length) ∧
    validationErrors [CarName.str "kia seltos", CarName.str "mg 5"] = [] := by
  have hinv : ∃ n ∈ [CarName.str "kia seltos", CarName.str "", CarName.undefined],
      n.isInvalid = true := ⟨CarName.str "", by simp, rfl⟩
  have hvalid : ∀ n ∈ [CarName.str "kia seltos", CarName.str "mg 5"],
      ∃ s, n = CarName.str s ∧ 1 ≤ s.length := by
    intro n hn
    simp only [List.mem_cons, List.mem_singleton, List.not_mem_nil, or_false] at hn
    rcases hn with rfl | rfl
    · exact ⟨"kia seltos", rfl, by decide⟩
    · exact ⟨"mg 5", rfl, by decide⟩
  refine ⟨hinv, ?_, hvalid, ?_⟩
  · rw [(scrapeCars_validation istRuntime secondVehicleFails 6 []
      [CarName.str "kia seltos", CarName.str "", CarName.undefined] true true true 1).1 hinv]
    decide
  · exact (scrapeCars_validation istRuntime secondVehicleFails 6 []
      [CarName.str "kia seltos", CarName.str "mg 5"] true true true 1).2 hvalid

/-! ## The bound on the pagination loop -/

/-- The loop is the iteration of `loopStep`. -/
theorem scrapeLoop_step (env : JobEnv) (carName periodName : String) (fuel : Nat)
    (s : LoopState) :
    scrapeLoop env carName periodName (fuel + 1) s.loads s.index s.results =
      match loopStep env carName periodName s with
      | .inl exit => some exit
      | .inr t => scrapeLoop env carName periodName fuel t.loads t.index t.results := by
  rw [scrapeLoop]
  unfold loopStep
  cases env.cancelled s.loads with
  | true => simp
  | false =>
    simp only [Bool.false_eq_true, if_false]
    cases (env.listing s.loads).goto with
    | error e => simp
    | ok u =>
      simp only []
      cases selectorsVisible (env.listing s.loads) with
      | false => simp
      | true =>
        simp only [if_true]
        cases extractCard (env.listing s.loads) s.index carName periodName with
        | none => simp
        | some cardData =>
          simp only []
          cases enrich cardData.hasButton (env.listing s.loads).detail
              (s.results ++ [cardData.data]) s.index with
          | error e => simp
          | ok results2 => simp

/-- One iteration from a state in which `index`, the number of loads and the
number of records agree leads to a state of the same kind, with an index below
six. -/
theorem loopStep_invariant (env : JobEnv) (carName periodName : String) (s t : LoopState)
    (hs : s.results.length = s.index ∧ s.loads = s.index)
    (h : loopStep env carName periodName s = .inr t) :
    t.results.length = t.index ∧ t.loads = t.index ∧ t.index ≤ 5 ∧ t.index = s.index + 1 := by
  obtain ⟨hlen, hloads⟩ := hs
  unfold loopStep at h
  cases hc : env.cancelled s.loads with
  | true => simp [hc] at h
  | false =>
    simp only [hc, Bool.false_eq_true, if_false] at h
    cases hg : (env.listing s.loads).goto with
    | error e => simp [hg] at h
    | ok u =>
      simp only [hg] at h
      cases hv : selectorsVisible (env.listing s.loads) with
      | false => simp [hv] at h
      | true =>
        simp only [hv, if_true] at h
        cases hx : extractCard (env.listing s.loads) s.index carName periodName with
        | none => simp [hx] at h
        | some card =>
          simp only [hx] at h
          have hlt : s.index < 5 := by
            by_contra hge
            rw [extractCard_of_five_le _ _ _ _ (by omega)] at hx
            cases hx
          obtain ⟨y, hy, -⟩ := enrich_last card (env.listing s.loads).detail s.results
            (extractCard_keys _ _ _ _ card hx)
          rw [hlen] at hy
          simp only [hy, Sum.inr.injEq] at h
          subst h
          refine ⟨?_, ?_, ?_, ?_⟩ <;> simp <;> omega

theorem reachedBy_invariant (env : JobEnv) (carName periodName : String) (s : LoopState)
    (h : ReachedBy env carName periodName s) :
    s.results.length = s.index ∧ s.loads = s.index ∧ s.index ≤ 5 := by
  induction h with
  | start => simp
  | next s t _ hstep ih =>
    obtain ⟨h1, h2, h3, -⟩ := loopStep_invariant env carName periodName s t ⟨ih.1, ih.2.1⟩ hstep
    exact ⟨h1, h2, h3⟩

/-- The states of `ReachedBy` are those the run passes through: from the start
the run reaches the state after `s.loads` iterations and goes on from there. -/
theorem reachedBy_run (env : JobEnv) (carName periodName : String) (s : LoopState)
    (h : ReachedBy env carName periodName s) (fuel : Nat) :
    scrapeLoop env carName periodName (s.loads + fuel) 0 0 [] =
      scrapeLoop env carName periodName fuel s.loads s.index s.results := by
  induction h generalizing fuel with
  | start => simp
  | next s t hs hstep ih =>
    obtain ⟨-, hl, -, hi⟩ := loopStep_invariant env carName periodName s t
      ⟨(reachedBy_invariant env carName periodName s hs).1,
        (reachedBy_invariant env carName periodName s hs).2.1⟩ hstep
    have hsl := (reachedBy_invariant env carName periodName s hs).2.1
    have hrun := ih (fuel + 1)
    rw [scrapeLoop_step env carName periodName fuel s, hstep] at hrun
    rw [show t.loads + fuel = s.loads + (fuel + 1) by omega]
    exact hrun

theorem outcomeOf_data_length (carName periodName : String) (exit : LoopExit) :
    (outcomeOf carName periodName exit).data.length ≤ exit.results.length := by
  unfold outcomeOf
  cases exit.thrown with
  | some msg => simp
  | none =>
    by_cases hz : exit.results.length = 0
    · simp [hz]
    · simp [hz]

theorem stoppedAt_loads (env : JobEnv) (carName periodName : String) (exit : LoopExit)
    (h : StoppedAt env carName periodName exit) : exit.loads ≤ exit.index + 1 := by
  rcases h with ⟨-, -, hl⟩ | ⟨-, -, hl⟩ | ⟨-, -, -, -, hl⟩ <;> omega

/-- C12: whatever the page does (any document at any load, any awaited step
throwing, the flag set at any time), with six units of fuel or more the
pagination loop of `scrapeCarData` is left after at most six listing loads and
the returned data holds at most five records.  Every loop-head state the run
goes through has as many records as its `index`, an index of at most five and
as many loads behind it as its `index`; the same equality holds when the loop is
left. -/
theorem scrapeCarData_loop_bounded (env : JobEnv) (call : JobCall) (fuel : Nat)
    (hfuel : 6 ≤ fuel) :
    (∃ outcome loads, scrapeCarData env call fuel = some (outcome, loads) ∧
      loads ≤ 6 ∧ outcome.data.length ≤ 5) ∧
    (∀ s, ReachedBy env call.carName call.periodName s →
      s.results.length = s.index ∧ s.index ≤ 5 ∧ s.loads = s.index ∧
      scrapeLoop env call.carName call.periodName (s.loads + fuel) 0 0 [] =
        scrapeLoop env call.carName call.periodName fuel s.loads s.index s.results) ∧
    (∃ exit, scrapeLoop env call.carName call.periodName fuel 0 0 [] = some exit ∧
      exit.results.length = exit.index ∧ exit.index ≤ 5 ∧ exit.loads ≤ exit.index + 1) := by
  refine ⟨?_, ?_, ?_⟩
  · obtain ⟨exit, hrun, hidx, hle, -, hstop⟩ := scrapeCarData_exit env call fuel hfuel
    have hloads := stoppedAt_loads env call.carName call.periodName exit hstop
    have hdata := outcomeOf_data_length call.carName call.periodName exit
    exact ⟨_, _, hrun, by omega, by omega⟩
  · intro s hs
    obtain ⟨h1, h2, h3⟩ := reachedBy_invariant env call.carName call.periodName s hs
    exact ⟨h1, h3, h2, reachedBy_run env call.carName call.periodName s hs fuel⟩
  · have hsome := scrapeLoop_isSome env call.carName call.periodName fuel 0 0 []
      (by omega) (by omega)
    obtain ⟨exit, hexit⟩ := Option.isSome_iff_exists.mp hsome
    obtain ⟨hidx, hle, -, hstop⟩ := scrapeLoop_invariant env call.carName call.periodName
      fuel [] exit hexit (by simp) (by simp)
    exact ⟨exit, hexit, hidx.symm, hle,
      stoppedAt_loads env call.carName call.periodName exit hstop⟩

theorem scrapeCarData_loop_bounded_witness :
    6 ≤ 6 ∧
    (scrapeCarData (steadyJob (listingOf eightCardDom)) sampleCall 6).map
        (fun res => (res.1.data.length, res.2)) = some (5, 6) ∧
    ∃ outcome loads,
      scrapeCarData (steadyJob (listingOf eightCardDom)) sampleCall 6 = some (outcome, loads) ∧
      loads ≤ 6 ∧ outcome.data.length ≤ 5 :=
  ⟨by decide, by decide,
    (scrapeCarData_loop_bounded (steadyJob (listingOf eightCardDom)) sampleCall 6
      (by decide)).1⟩

/-! ## Classification of the price paragraphs -/

theorem lastWhere_cons (q : Paragraph → Bool) (p : Paragraph) (rest : List Paragraph) :
    lastWhere q (p :: rest) =
      match lastWhere q rest with
      | some r => some r
      | none => if q p then some p else none := by
  unfold lastWhere
  by_cases hq : q p = true
  · rw [List.filter_cons_of_pos hq, List.getLast?_cons]
    cases (List.filter q rest).getLast? <;> simp [hq]
  · rw [List.filter_cons_of_neg hq]
    cases (List.filter q rest).getLast? <;> simp [hq]

theorem classifyParagraph_fields (acc : Prices) (p : Paragraph) :
    (classifyParagraph acc p).crossPrice =
      (if isCrossLine p then p.text else acc.crossPrice) ∧
    (classifyParagraph acc p).actualPrice =
      (if isActualLine p then p.text else acc.actualPrice) ∧
    (classifyParagraph acc p).totalPrice =
      (if isTotalLine p then jsTrim (removeFirst p.text "Total:") else acc.totalPrice) := by
  unfold classifyParagraph isCrossLine isActualLine isTotalLine Paragraph.text
  by_cases h1 : testTotal (jsTrim p.textContent) = true <;>
    by_cases h2 : testAED (jsTrim p.textContent) = true <;>
    by_cases h3 : p.crossOut = true <;> simp [h1, h2, h3]

/-- The loop over the paragraphs started from any values: each variable ends
with the value set by the last paragraph of its category, or keeps its initial
value. -/
theorem foldl_classifyParagraph (ps : List Paragraph) :
    ∀ acc : Prices,
      (ps.foldl classifyParagraph acc).crossPrice =
        ((lastWhere isCrossLine ps).map Paragraph.text).getD acc.crossPrice ∧
      (ps.foldl classifyParagraph acc).actualPrice =
        ((lastWhere isActualLine ps).map Paragraph.text).getD acc.actualPrice ∧
      (ps.foldl classifyParagraph acc).totalPrice =
        ((lastWhere isTotalLine ps).map
          (fun p => jsTrim (removeFirst p.text "Total:"))).getD acc.totalPrice := by
  induction ps with
  | nil => intro acc; simp [lastWhere]
  | cons p rest ih =>
    intro acc
    obtain ⟨hc, ha, ht⟩ := ih (classifyParagraph acc p)
    obtain ⟨fc, fa, ft⟩ := classifyParagraph_fields acc p
    simp only [List.foldl_cons]
    refine ⟨?_, ?_, ?_⟩
    · rw [hc, lastWhere_cons, fc]
      cases lastWhere isCrossLine rest with
      | some r => simp
      | none => cases isCrossLine p <;> simp
    · rw [ha, lastWhere_cons, fa]
      cases lastWhere isActualLine rest with
      | some r => simp
      | none => cases isActualLine p <;> simp
    · rw [ht, lastWhere_cons, ft]
      cases lastWhere isTotalLine rest with
      | some r => simp
      | none => cases isTotalLine p <;> simp

theorem isPrefixOf_map (f : Char → Char) (pat : List Char) :
    ∀ s : List Char, pat.isPrefixOf s = true → (pat.map f).isPrefixOf (s.map f) = true := by
  induction pat with
  | nil => intro s _; simp
  | cons a rest ih =>
    intro s h
    cases s with
    | nil => simp at h
    | cons b bs =>
      simp only [List.isPrefixOf, Bool.and_eq_true, beq_iff_eq] at h
      simp only [List.map_cons, List.isPrefixOf, Bool.and_eq_true, beq_iff_eq]
      exact ⟨by rw [h.1], ih bs h.2⟩

theorem includesChars_map (f : Char → Char) (pat : List Char) :
    ∀ s : List Char, includesChars pat s = true →
      includesChars (pat.map f) (s.map f) = true := by
  intro s
  induction s with
  | nil =>
    intro h
    cases pat with
    | nil => rfl
    | cons a rest => simp [includesChars] at h
  | cons c cs ih =>
    intro h
    simp only [includesChars, Bool.or_eq_true] at h
    simp only [List.map_cons, includesChars, Bool.or_eq_true]
    rcases h with h | h
    · left
      have := isPrefixOf_map f pat (c :: cs) h
      simpa using this
    · right
      exact ih h

theorem isTotalLine_of_claimed (p : Paragraph) (h : claimedTotalLine p = true) :
    isTotalLine p = true := by
  unfold claimedTotalLine jsIncludes at h
  unfold isTotalLine testTotal
  have := includesChars_map Char.toLower "Total:".data p.text.data h
  have hpat : "Total:".data.map Char.toLower = "total:".data := by decide
  rw [hpat] at this
  exact this

theorem lastWhere_congr (q r : Paragraph → Bool) (ps : List Paragraph)
    (h : ∀ p ∈ ps, q p = r p) : lastWhere q ps = lastWhere r ps := by
  unfold lastWhere
  rw [List.filter_congr h]

/-- When every Total line of the block spells the label `Total:` as written,
the three prices are exactly those of the specification. -/
theorem classifyPrices_eq_claimed (ps : List Paragraph)
    (h : ∀ p ∈ ps, isTotalLine p = true → claimedTotalLine p = true) :
    classifyPrices ps = claimedPrices ps := by
  have hsame : ∀ p ∈ ps, isTotalLine p = claimedTotalLine p := by
    intro p hp
    cases hc : claimedTotalLine p with
    | true => exact isTotalLine_of_claimed p hc
    | false =>
      cases ht : isTotalLine p with
      | false => rfl
      | true => rw [h p hp ht] at hc; cases hc
  obtain ⟨hc, ha, ht⟩ := foldl_classifyParagraph ps ⟨NA, NA, NA⟩
  have e1 := lastWhere_congr isCrossLine
    (fun p => !claimedTotalLine p && testAED p.text && p.crossOut) ps
    (fun p hp => by simp [isCrossLine, hsame p hp])
  have e2 := lastWhere_congr isActualLine
    (fun p => !claimedTotalLine p && testAED p.text && !p.crossOut) ps
    (fun p hp => by simp [isActualLine, hsame p hp])
  have e3 := lastWhere_congr isTotalLine claimedTotalLine ps hsame
  have hfold : classifyPrices ps = ps.foldl classifyParagraph ⟨NA, NA, NA⟩ := rfl
  rw [hfold]
  cases hres : ps.foldl classifyParagraph ⟨NA, NA, NA⟩ with
  | mk c a t =>
    rw [hres] at hc ha ht
    simp only at hc ha ht
    simp only [claimedPrices, ← e1, ← e2, ← e3, ← hc, ← ha, ← ht]

theorem cardCallback_prices (dom : Dom) (index : Nat) (carName periodName : String)
    (card : CardData) (h : cardCallback dom index carName periodName = .ok (some card)) :
    card.data.get? "Cross Price" =
        some (((dom.priceDivs[index]?).map
          (fun d => (classifyPrices d.paragraphs).crossPrice)).getD NA) ∧
    card.data.get? "Actual Price" =
        some (((dom.priceDivs[index]?).map
          (fun d => (classifyPrices d.paragraphs).actualPrice)).getD NA) ∧
    card.data.get? "Total" =
        some (((dom.priceDivs[index]?).map
          (fun d => (classifyPrices d.paragraphs).totalPrice)).getD NA) := by
  unfold cardCallback at h
  split at h
  · cases h
  · split at h
    · cases h
    · split at h
      · cases h
      · simp only [Except.ok.injEq, Option.some.injEq] at h
        subst h
        cases dom.priceDivs[index]? <;> cases dom.featureDivs[index]? <;>
          simp [Record.get?_set_self, Record.get?_set_ne]

/-- C11 (as amended): the paragraphs of a price block are processed top to
bottom on their trimmed text.  A Total line is a paragraph whose text contains
`Total:` in any letter case.  Cross Price is the text of the last paragraph that
is not a Total line, contains `AED` and has the struck-through marker; Actual
Price is the text of the last paragraph that is not a Total line, contains `AED`
and has no marker; Total comes from the last Total line and, when that line
spells the label `Total:` as written, it is the text with the first `Total:`
removed, trimmed.  A field without a qualifying paragraph is `"N/A"`, each
paragraph changes at most one of the three variables, and the record carries the
three values, or three times `"N/A"` when the card has no price block.  When
every Total line of a block spells the label as written, the three prices are
exactly those of the specification. -/
theorem classifyPrices_last_match :
    (∀ ps : List Paragraph,
      (classifyPrices ps).crossPrice =
        ((lastWhere isCrossLine ps).map Paragraph.text).getD NA ∧
      (classifyPrices ps).actualPrice =
        ((lastWhere isActualLine ps).map Paragraph.text).getD NA ∧
      (lastWhere isTotalLine ps = none → (classifyPrices ps).totalPrice = NA) ∧
      (∀ p, lastWhere isTotalLine ps = some p → jsIncludes p.text "Total:" = true →
        (classifyPrices ps).totalPrice = jsTrim (removeFirst p.text "Total:"))) ∧
    (∀ (acc : Prices) (p : Paragraph),
      ((classifyParagraph acc p).crossPrice = acc.crossPrice ∧
        (classifyParagraph acc p).actualPrice = acc.actualPrice) ∨
      ((classifyParagraph acc p).crossPrice = acc.crossPrice ∧
        (classifyParagraph acc p).totalPrice = acc.totalPrice) ∨
      ((classifyParagraph acc p).actualPrice = acc.actualPrice ∧
        (classifyParagraph acc p).totalPrice = acc.totalPrice)) ∧
    (∀ (dom : Dom) (index : Nat) (carName periodName : String) (card : CardData),
      cardCallback dom index carName periodName = .ok (some card) →
      (∀ priceDiv, dom.priceDivs[index]? = some priceDiv →
        card.data.get? "Cross Price" = some (classifyPrices priceDiv.paragraphs).crossPrice ∧
        card.data.get? "Actual Price" = some (classifyPrices priceDiv.paragraphs).actualPrice ∧
        card.data.get? "Total" = some (classifyPrices priceDiv.paragraphs).totalPrice) ∧
      (dom.priceDivs[index]? = none →
        card.data.get? "Cross Price" = some NA ∧ card.data.get? "Actual Price" = some NA ∧
        card.data.get? "Total" = some NA)) ∧
    (∀ ps : List Paragraph,
      (∀ p ∈ ps, isTotalLine p = true → claimedTotalLine p = true) →
      classifyPrices ps = claimedPrices ps) := by
  refine ⟨?_, ?_, ?_, classifyPrices_eq_claimed⟩
  · intro ps
    obtain ⟨hc, ha, ht⟩ := foldl_classifyParagraph ps ⟨NA, NA, NA⟩
    refine ⟨hc, ha, ?_, ?_⟩
    · intro hnone
      have := ht
      rw [hnone] at this
      exact this
    · intro p hp _
      have := ht
      rw [hp] at this
      exact this
  · intro acc p
    unfold classifyParagraph
    by_cases h1 : testTotal (jsTrim p.textContent) = true <;>
      by_cases h2 : testAED (jsTrim p.textContent) = true <;>
      by_cases h3 : p.crossOut = true <;> simp [h1, h2, h3]
  · intro dom index carName periodName card h
    obtain ⟨hc, ha, ht⟩ := cardCallback_prices dom index carName periodName card h
    constructor
    · intro priceDiv hp
      rw [hp] at hc ha ht
      exact ⟨hc, ha, ht⟩
    · intro hp
      rw [hp] at hc ha ht
      exact ⟨hc, ha, ht⟩

theorem classifyPrices_last_match_witness :
    lastWhere isTotalLine sampleParagraphs =
      some { textContent := " Total: AED 99 ", crossOut := false } ∧
    jsIncludes (Paragraph.text { textContent := " Total: AED 99 ", crossOut := false })
      "Total:" = true ∧
    (classifyPrices sampleParagraphs).totalPrice = "AED 99" ∧
    (classifyPrices sampleParagraphs).crossPrice = "AED 120" ∧
    (classifyPrices sampleParagraphs).actualPrice = "AED 80" := by
  have hlast : lastWhere isTotalLine sampleParagraphs =
      some { textContent := " Total: AED 99 ", crossOut := false } := by decide
  have hinc : jsIncludes (Paragraph.text { textContent := " Total: AED 99 ", crossOut := false })
      "Total:" = true := by decide
  obtain ⟨hc, ha, -, ht⟩ := classifyPrices_last_match.1 sampleParagraphs
  refine ⟨hlast, hinc, ?_, ?_, ?_⟩
  · rw [ht _ hlast hinc]
    decide
  · rw [hc]
    decide
  · rw [ha]
    decide

/-- C11 as stated fails: the only paragraph reads `TOTAL: AED 99` without a
marker.  It does not contain `Total:` as written, so by the statement it is a
current price and Total is `"N/A"`; the code tests `/Total:/i`, takes it as a
Total line and leaves Actual Price at `"N/A"`. -/
theorem classifyPrices_capital_total :
    claimedTotalLine { textContent := "TOTAL: AED 99", crossOut := false } = false ∧
    claimedPrices capitalTotalParagraphs =
      { crossPrice := "N/A", actualPrice := "TOTAL: AED 99", totalPrice := "N/A" } ∧
    (classifyPrices capitalTotalParagraphs).actualPrice = "N/A" ∧
    (classifyPrices capitalTotalParagraphs).totalPrice ≠ "N/A" ∧
    classifyPrices capitalTotalParagraphs ≠ claimedPrices capitalTotalParagraphs := by
  decide

end YangoScraper
